import Mathlib

/-!
Verification development for the EDS (endpoint discovery) response parser of
xds/internal/xdsclient/xdsresource/unmarshal_eds.go.

The wire-format protobuf messages (envoy ClusterLoadAssignment and its
submessages) are shallowly embedded as Lean structures; proto3 getter
semantics (a getter on an absent submessage yields the zero value) are
embedded by modelling message-typed fields as Option and reading them with
getD-style accessors.  Machine integers (uint32 weights, priorities, ports)
carry no arithmetic in the source, so they are embedded as Nat.
-/

set_option autoImplicit false

namespace EdsParse

/-- Accessor for a proto wrapperspb.UInt32Value field: GetValue() on a nil
wrapper yields 0. -/
def getValue (w : Option Nat) : Nat := w.getD 0

/-- Embedding of envoy core.SocketAddress: the address string and the
port_value branch of the port_specifier oneof (GetPortValue yields 0 when the
oneof holds a named port or is unset, which is the only observation the
source makes of it). -/
structure SocketAddress where
  address : String
  portValue : Nat
deriving DecidableEq

/-- Embedding of envoy core.Address: the socket_address branch of its oneof;
none models both an unset oneof and a non-socket branch. -/
structure AddressProto where
  socketAddress : Option SocketAddress
deriving DecidableEq

/-- Embedding of envoy endpoint.Endpoint (the message naming one network
endpoint): its address field. -/
structure EndpointProto where
  address : Option AddressProto
deriving DecidableEq

/-- Embedding of envoy endpoint.LbEndpoint: the endpoint branch of the
host_identifier oneof, the health_status enum (kept as its raw ordinal) and
the load_balancing_weight wrapper. -/
structure LbEndpoint where
  endpoint : Option EndpointProto
  healthStatus : Nat
  loadBalancingWeight : Option Nat
deriving DecidableEq

/-- Embedding of envoy core.Locality (the identity carried on a locality
entry): region, zone, sub_zone. -/
structure LocalityProto where
  region : String
  zone : String
  subZone : String
deriving DecidableEq

/-- Embedding of envoy endpoint.LocalityLbEndpoints: one locality entry of a
ClusterLoadAssignment. -/
structure LocalityLbEndpoints where
  locality : Option LocalityProto
  lbEndpoints : List LbEndpoint
  loadBalancingWeight : Option Nat
  priority : Nat
deriving DecidableEq

/-- Embedding of envoy type.FractionalPercent.  The denominator field is a
proto3 open enum kept as its raw ordinal: 0 = HUNDRED (the default for an
unset field), 1 = TEN_THOUSAND, 2 = MILLION; any other ordinal is an
unrecognized wire value. -/
structure FractionalPercent where
  numerator : Nat
  denominator : Nat
deriving DecidableEq

/-- Embedding of ClusterLoadAssignment.Policy.DropOverload. -/
structure DropOverload where
  category : String
  dropPercentage : Option FractionalPercent
deriving DecidableEq

/-- Embedding of ClusterLoadAssignment.Policy (only the drop_overloads field
is read by the source). -/
structure Policy where
  dropOverloads : List DropOverload
deriving DecidableEq

/-- Embedding of envoy ClusterLoadAssignment: cluster_name, the locality
entries and the policy. -/
structure ClusterLoadAssignment where
  clusterName : String
  endpoints : List LocalityLbEndpoints
  policy : Option Policy
deriving DecidableEq

/-- Accessor m.GetPolicy().GetDropOverloads(): nil policy yields the empty
list. -/
def getDropOverloads (m : ClusterLoadAssignment) : List DropOverload :=
  (m.policy.map Policy.dropOverloads).getD []

/-- Embedding of internal.LocalityID, the native locality identity struct. -/
structure LocalityID where
  region : String
  zone : String
  subZone : String
deriving DecidableEq

/-- Modelled from the spec: the canonical string form of a LocalityID ("used
as a map/set key via a canonical string form").  The repository's
canonicalization function (internal.LocalityID.ToString) is not among the
supplied sources, so it is modelled as a field-separated encoding of the
three fields; every claim is phrased at the level of this string. -/
def LocalityID.canonicalString (l : LocalityID) : String :=
  "region=" ++ l.region ++ ";zone=" ++ l.zone ++ ";subZone=" ++ l.subZone

/-- Native Endpoint struct produced by the parser. -/
structure Endpoint where
  address : String
  healthStatus : Nat
  weight : Nat
deriving DecidableEq

/-- Native Locality struct produced by the parser. -/
structure Locality where
  id : LocalityID
  endpoints : List Endpoint
  weight : Nat
  priority : Nat
deriving DecidableEq

/-- Native OverloadDropConfig struct produced by the parser. -/
structure OverloadDropConfig where
  category : String
  numerator : Nat
  denominator : Nat
deriving DecidableEq

/-- Wire "any" payload handed to the per-resource unmarshal function.  The
value field models the byte payload through the eyes of the external codec:
some cla when proto.Unmarshal would decode it into that
ClusterLoadAssignment, none when decoding fails. -/
structure AnyResource where
  typeUrl : String
  value : Option ClusterLoadAssignment
deriving DecidableEq

/-- Native EndpointsUpdate struct produced by the parser; raw is the opaque
backreference to the original wire payload. -/
structure EndpointsUpdate where
  drops : List OverloadDropConfig
  localities : List Locality
  raw : Option AnyResource
deriving DecidableEq

/-- Zero value EndpointsUpdate (Go EndpointsUpdate with nil slices and nil
raw pointer), returned on every error branch. -/
def EndpointsUpdate.empty : EndpointsUpdate :=
  { drops := [], localities := [], raw := none }

/-- Structural parse errors raised by parseEDSRespProto and parseEndpoints
(in the source these are fmt.Errorf values; the embedding keeps their kind
and the data they report). -/
inductive ParseError where
  | missingLocality
  | duplicateLocality (lidStr : String) (priority : Nat)
  | zeroWeightEndpoint
  | missingPriority (i : Nat)
deriving DecidableEq

/-- Errors of the per-resource unmarshal function: the three envelope
failures plus a wrapped structural parse error. -/
inductive EdsError where
  | unwrapFailure
  | wrongResourceType (url : String)
  | decodeFailure
  | parseErr (e : ParseError)
deriving DecidableEq

/-- Model of Go net.JoinHostPort: a host containing a colon (an IPv6
literal) is bracketed.  The colon test is phrased on the character list of
the host string. -/
def joinHostPort (host port : String) : String :=
  if host.toList.contains ':' then "[" ++ host ++ "]:" ++ port
  else host ++ ":" ++ port

/-- Accessor socketAddress.GetAddress() on a possibly-nil pointer. -/
def getSockAddressField (sa : Option SocketAddress) : String :=
  (sa.map SocketAddress.address).getD ""

/-- Accessor socketAddress.GetPortValue() on a possibly-nil pointer. -/
def getSockPortValue (sa : Option SocketAddress) : Nat :=
  (sa.map SocketAddress.portValue).getD 0

/-- Embedding of parseAddress: net.JoinHostPort of the socket address and
its decimal port. -/
def parseAddress (socketAddress : Option SocketAddress) : String :=
  joinHostPort (getSockAddressField socketAddress)
    (Nat.repr (getSockPortValue socketAddress))

/-- Accessor chain lbEndpoint.GetEndpoint().GetAddress().GetSocketAddress()
with proto3 nil-safe getters. -/
def getLbSocketAddress (e : LbEndpoint) : Option SocketAddress :=
  (e.endpoint.bind EndpointProto.address).bind AddressProto.socketAddress

/-- Embedding of parseDropPolicy: map the fractional-percent denominator
enum to a concrete denominator (unmatched ordinals leave the Go zero value
0) and copy numerator and category through. -/
def parseDropPolicy (dropPolicy : DropOverload) : OverloadDropConfig :=
  let numerator := (dropPolicy.dropPercentage.map FractionalPercent.numerator).getD 0
  let denominator : Nat :=
    match (dropPolicy.dropPercentage.map FractionalPercent.denominator).getD 0 with
    | 0 => 100
    | 1 => 10000
    | 2 => 1000000
    | _ => 0
  { category := dropPolicy.category, numerator := numerator, denominator := denominator }

/-- Embedding of parseEndpoints: reject any endpoint whose weight resolves
to 0, otherwise emit native Endpoints in source order. -/
def parseEndpoints : List LbEndpoint → Except ParseError (List Endpoint)
  | [] => Except.ok []
  | lbEndpoint :: rest =>
    if getValue lbEndpoint.loadBalancingWeight = 0 then
      Except.error ParseError.zeroWeightEndpoint
    else
      match parseEndpoints rest with
      | Except.error e => Except.error e
      | Except.ok eps =>
        Except.ok ({ address := parseAddress (getLbSocketAddress lbEndpoint),
                     healthStatus := lbEndpoint.healthStatus,
                     weight := getValue lbEndpoint.loadBalancingWeight } :: eps)

/-- Lookup in the priorities map (Go map[uint32]map[string]bool, embedded as
an association list from priority to the list of locality-identity strings
recorded at that priority). -/
def lookupPrio : List (Nat × List String) → Nat → Option (List String)
  | [], _ => none
  | (q, ss) :: rest, p => if q = p then some ss else lookupPrio rest p

/-- Record an identity string under a priority: extend the existing entry or
add a fresh key. -/
def insertLid : List (Nat × List String) → Nat → String → List (Nat × List String)
  | [], p, s => [(p, [s])]
  | (q, ss) :: rest, p, s =>
    if q = p then (q, ss ++ [s]) :: rest else (q, ss) :: insertLid rest p s

/-- Embedding of the locality loop of parseEDSRespProto: walk the locality
entries in order, rejecting entries without identity, skipping zero-weight
entries, rejecting an identity already recorded at the same priority, and
parsing each surviving entry's endpoints. -/
def parseLocalities (prios : List (Nat × List String)) (acc : List Locality) :
    List LocalityLbEndpoints → Except ParseError (List (Nat × List String) × List Locality)
  | [] => Except.ok (prios, acc)
  | loc :: rest =>
    match loc.locality with
    | none => Except.error ParseError.missingLocality
    | some l =>
      if getValue loc.loadBalancingWeight = 0 then
        parseLocalities prios acc rest
      else
        let lidStr := LocalityID.canonicalString
          { region := l.region, zone := l.zone, subZone := l.subZone }
        if lidStr ∈ (lookupPrio prios loc.priority).getD [] then
          Except.error (ParseError.duplicateLocality lidStr loc.priority)
        else
          match parseEndpoints loc.lbEndpoints with
          | Except.error e => Except.error e
          | Except.ok eps =>
            parseLocalities (insertLid prios loc.priority lidStr)
              (acc ++ [{ id := { region := l.region, zone := l.zone, subZone := l.subZone },
                         endpoints := eps,
                         weight := getValue loc.loadBalancingWeight,
                         priority := loc.priority }]) rest

/-- Embedding of the final contiguity loop of parseEDSRespProto: the first
index i below the number of distinct recorded priorities that is not itself
a recorded priority, if any. -/
def firstMissingPriority (prios : List (Nat × List String)) : Option Nat :=
  (List.range prios.length).find? fun i => (lookupPrio prios i).isNone

/-- Embedding of parseEDSRespProto.  Matches the Go control flow: drops are
collected first, the locality loop runs, and the contiguity loop closes; on
any error the zero-value EndpointsUpdate is returned alongside it. -/
def parseEDSRespProto (m : ClusterLoadAssignment) :
    EndpointsUpdate × Option ParseError :=
  let drops := (getDropOverloads m).map parseDropPolicy
  match parseLocalities [] [] m.endpoints with
  | Except.error e => (EndpointsUpdate.empty, some e)
  | Except.ok (prios, locs) =>
    match firstMissingPriority prios with
    | some i => (EndpointsUpdate.empty, some (ParseError.missingPriority i))
    | none => ({ drops := drops, localities := locs, raw := none }, none)

/-- Modelled from the spec: the possibly-wrapped outer envelope of a
resource ("a capability to unwrap a possibly-wrapped outer envelope into the
canonical payload"); the unwrapResource helper is not among the supplied
sources.  A wrapped envelope either carries an inner payload or is malformed
(none). -/
inductive WrappedAny where
  | plain (a : AnyResource)
  | wrapped (inner : Option AnyResource)
deriving DecidableEq

/-- Modelled from the spec: unwrapResource returns the canonical payload or
fails on a malformed wrapper. -/
def unwrapResource : WrappedAny → Option AnyResource
  | WrappedAny.plain a => some a
  | WrappedAny.wrapped (some a) => some a
  | WrappedAny.wrapped none => none

/-- Modelled from the spec: the resource-type discriminator ("a predicate
that classifies whether a given type identifier denotes an endpoint-list
resource"); IsEndpointsResource lives in the shared registry outside the
supplied sources.  It recognizes the v2 and v3 endpoint-list type URLs. -/
def IsEndpointsResource (url : String) : Bool :=
  url = "type.googleapis.com/envoy.api.v2.ClusterLoadAssignment" ||
  url = "type.googleapis.com/envoy.config.endpoint.v3.ClusterLoadAssignment"

/-- Embedding of unmarshalEndpointsResource: unwrap the envelope, check the
resource type, decode, parse; the declared cluster name is returned with any
post-decode error, and the raw payload backreference is attached only on
full success. -/
def unmarshalEndpointsResource (w : WrappedAny) :
    String × EndpointsUpdate × Option EdsError :=
  match unwrapResource w with
  | none => ("", EndpointsUpdate.empty, some EdsError.unwrapFailure)
  | some r =>
    if IsEndpointsResource r.typeUrl = false then
      ("", EndpointsUpdate.empty, some (EdsError.wrongResourceType r.typeUrl))
    else
      match r.value with
      | none => ("", EndpointsUpdate.empty, some EdsError.decodeFailure)
      | some cla =>
        match parseEDSRespProto cla with
        | (_, some e) => (cla.clusterName, EndpointsUpdate.empty, some (EdsError.parseErr e))
        | (u, none) => (cla.clusterName, { u with raw := some r }, none)

/-- Modelled from the spec: the batch processor invokes the per-resource
unmarshal function on each resource of a response and records each outcome
under the returned name ("a mapping from resource name to an outcome tuple");
processAllResources is not among the supplied sources.  The mapping is
modelled as the sequence of insertions in input order (the spec's last-wins
overwrite is the usual assoc-update on that sequence). -/
def processAllResources (rs : List WrappedAny) :
    List (String × (EndpointsUpdate × Option EdsError)) :=
  rs.map fun r =>
    match unmarshalEndpointsResource r with
    | (name, u, err) => (name, (u, err))

/-- Identity of a locality entry as recorded by the duplicate check: the
canonical string of its locality field, or the empty string for an
unidentified entry (which never reaches that check). -/
def localityKey (loc : LocalityLbEndpoints) : String :=
  match loc.locality with
  | none => ""
  | some l => LocalityID.canonicalString
      { region := l.region, zone := l.zone, subZone := l.subZone }

/-- Survivor test: a locality entry that carries an identity and a non-zero
weight (the entries that occupy a priority slot and reach the output). -/
def survivorB (loc : LocalityLbEndpoints) : Bool :=
  loc.locality.isSome && !(getValue loc.loadBalancingWeight == 0)

/-- Priorities occupied by the surviving locality entries of an input, in
source order. -/
def survivorPriorities (m : ClusterLoadAssignment) : List Nat :=
  (m.endpoints.filter survivorB).map LocalityLbEndpoints.priority

/-- Test that every locality entry carries an identity. -/
def allIdentified (l : List LocalityLbEndpoints) : Bool :=
  l.all fun loc => loc.locality.isSome

/-- Test that every endpoint of every surviving locality entry has a
non-zero declared weight. -/
def survivorEndpointsPositive (l : List LocalityLbEndpoints) : Bool :=
  l.all fun loc =>
    !survivorB loc || loc.lbEndpoints.all fun ep => getValue ep.loadBalancingWeight != 0

/-- Pair compatibility for the duplicate check: false exactly when both
entries survive and collide on priority and canonical identity string. -/
def pairOK (a b : LocalityLbEndpoints) : Bool :=
  !(survivorB a && survivorB b && (a.priority == b.priority) && (localityKey a == localityKey b))

/-- Test that no two entries of the list collide in the sense of pairOK. -/
def noDupList : List LocalityLbEndpoints → Bool
  | [] => true
  | a :: rest => rest.all (pairOK a) && noDupList rest

/-- Proposition that the list contains two surviving entries, in order, both
at priority p and both with canonical identity string s. -/
def dupPairAt (l : List LocalityLbEndpoints) (p : Nat) (s : String) : Prop :=
  ∃ pre a mid b post, l = pre ++ a :: mid ++ b :: post ∧
    survivorB a = true ∧ survivorB b = true ∧
    a.priority = p ∧ b.priority = p ∧ localityKey a = s ∧ localityKey b = s

/-- Keys of the priorities map, in insertion order. -/
def prioKeys (prios : List (Nat × List String)) : List Nat :=
  prios.map Prod.fst

/-- Drop mapping exactly as claim C5 words it: HUNDRED, TEN_THOUSAND and
MILLION map to 100, 10000 and 1000000, and "any other or unset base maps to
denominator 0" (so an absent percentage yields denominator 0 here). -/
def claimDropConfig (d : DropOverload) : OverloadDropConfig :=
  match d.dropPercentage with
  | none => { category := d.category, numerator := 0, denominator := 0 }
  | some f =>
    { category := d.category, numerator := f.numerator,
      denominator :=
        if f.denominator = 0 then 100
        else if f.denominator = 1 then 10000
        else if f.denominator = 2 then 1000000
        else 0 }

/-- Drop mapping as the amended claim words it: the three recognized
ordinals map to their denominators, any other set ordinal maps to 0, and an
unset base (indistinguishable from HUNDRED in proto3) maps to 100. -/
def specDropConfig (d : DropOverload) : OverloadDropConfig :=
  match d.dropPercentage with
  | none => { category := d.category, numerator := 0, denominator := 100 }
  | some f =>
    { category := d.category, numerator := f.numerator,
      denominator :=
        if f.denominator = 0 then 100
        else if f.denominator = 1 then 10000
        else if f.denominator = 2 then 1000000
        else 0 }

/-- The v3 endpoint-list resource type URL. -/
def edsV3TypeUrl : String :=
  "type.googleapis.com/envoy.config.endpoint.v3.ClusterLoadAssignment"

/-- Concrete socket address 10.0.0.1 port 80. -/
def sockAddr1 : SocketAddress := { address := "10.0.0.1", portValue := 80 }

/-- Concrete proto address wrapping sockAddr1. -/
def addr1 : AddressProto := { socketAddress := some sockAddr1 }

/-- Concrete proto endpoint wrapping addr1. -/
def epProto1 : EndpointProto := { address := some addr1 }

/-- Concrete endpoint with weight 1, health HEALTHY (ordinal 1) and socket
address 10.0.0.1 port 80; used by the concrete instances below. -/
def epW1 : LbEndpoint :=
  { endpoint := some epProto1, healthStatus := 1, loadBalancingWeight := some 1 }

/-- Concrete endpoint whose weight wrapper is absent, so its declared weight
resolves to 0. -/
def epW0 : LbEndpoint :=
  { endpoint := none, healthStatus := 0, loadBalancingWeight := none }

/-- Concrete locality identity A. -/
def locProtoA : LocalityProto := { region := "A", zone := "", subZone := "" }

/-- Concrete locality identity B. -/
def locProtoB : LocalityProto := { region := "B", zone := "", subZone := "" }

/-- Valid locality entry: identity A, weight 1, priority 0, one good
endpoint. -/
def entryA0 : LocalityLbEndpoints :=
  { locality := some locProtoA, lbEndpoints := [epW1],
    loadBalancingWeight := some 1, priority := 0 }

/-- Locality entry with identity A, weight 1, priority 0 but a zero-weight
endpoint inside. -/
def entryA0bad : LocalityLbEndpoints :=
  { locality := some locProtoA, lbEndpoints := [epW0],
    loadBalancingWeight := some 1, priority := 0 }

/-- Valid locality entry: identity B, weight 1, priority 2, one good
endpoint. -/
def entryB2 : LocalityLbEndpoints :=
  { locality := some locProtoB, lbEndpoints := [epW1],
    loadBalancingWeight := some 1, priority := 2 }

/-- Locality entry with no identity and no weight wrapper (declared weight
0). -/
def entryNil : LocalityLbEndpoints :=
  { locality := none, lbEndpoints := [], loadBalancingWeight := none, priority := 0 }

/-- Zero-weight locality entry that does carry an identity. -/
def entryZ : LocalityLbEndpoints :=
  { locality := some locProtoB, lbEndpoints := [], loadBalancingWeight := none,
    priority := 5 }

/-- Valid locality entry: identity A, weight 1, priority 1, one good
endpoint. -/
def entryA1 : LocalityLbEndpoints :=
  { locality := some locProtoA, lbEndpoints := [epW1],
    loadBalancingWeight := some 1, priority := 1 }

/-- Message with the same identity twice at priority 0 followed by an
identity-less entry: the duplicate fires before the identity-less entry is
reached. -/
def mDupNil : ClusterLoadAssignment :=
  { clusterName := "c", endpoints := [entryA0, entryA0, entryNil], policy := none }

/-- Message whose first entry is a surviving locality with a zero-weight
endpoint, followed by a duplicate pair at priority 1: the zero-weight error
fires before the duplicate pair is reached. -/
def mZeroDup : ClusterLoadAssignment :=
  { clusterName := "c", endpoints := [entryA0bad, entryA1, entryA1], policy := none }

/-- Message with the single valid locality entry of claim C8. -/
def mOk : ClusterLoadAssignment :=
  { clusterName := "c", endpoints := [entryA0], policy := none }

/-- Message whose surviving localities occupy priorities 0 and 2 and are
otherwise fully valid. -/
def mGapClean : ClusterLoadAssignment :=
  { clusterName := "c", endpoints := [entryA0, entryB2], policy := none }

/-- Message whose surviving localities occupy priorities 0 and 2 but whose
first locality carries a zero-weight endpoint. -/
def mGapZero : ClusterLoadAssignment :=
  { clusterName := "c", endpoints := [entryA0bad, entryB2], policy := none }

/-- Message carrying the same identity twice at the same priority, both
entries valid. -/
def mDup : ClusterLoadAssignment :=
  { clusterName := "c", endpoints := [entryA0, entryA0], policy := none }

/-- Message carrying the same identity twice at the same priority, the first
entry holding a zero-weight endpoint. -/
def mDupPre : ClusterLoadAssignment :=
  { clusterName := "c", endpoints := [entryA0bad, entryA0], policy := none }

/-- Message with a single zero-weight, identity-less locality entry. -/
def mNilZero : ClusterLoadAssignment :=
  { clusterName := "c", endpoints := [entryNil], policy := none }

/-- Message with an identity-less entry followed by a surviving locality
holding a zero-weight endpoint. -/
def mC4 : ClusterLoadAssignment :=
  { clusterName := "c", endpoints := [entryNil, entryA0bad], policy := none }

/-- Message with a surviving locality holding a zero-weight endpoint
followed by an identity-less entry. -/
def mC6 : ClusterLoadAssignment :=
  { clusterName := "c", endpoints := [entryA0bad, entryNil], policy := none }

/-- Message with two drop overloads (an explicit HUNDRED base and an absent
percentage) over one valid locality. -/
def mDrops : ClusterLoadAssignment :=
  { clusterName := "c", endpoints := [entryA0],
    policy := some { dropOverloads :=
      [{ category := "cat", dropPercentage := some { numerator := 3, denominator := 0 } },
       { category := "u", dropPercentage := none }] } }

/-- Native endpoint produced by parsing epW1. -/
def epOut : Endpoint := { address := "10.0.0.1:80", healthStatus := 1, weight := 1 }

/-- Native locality produced by parsing entryA0. -/
def locOut : Locality :=
  { id := { region := "A", zone := "", subZone := "" }, endpoints := [epOut],
    weight := 1, priority := 0 }

/-- Successful update produced by parsing mOk. -/
def uOk : EndpointsUpdate := { drops := [], localities := [locOut], raw := none }

/-- Successful update produced by parsing mDrops. -/
def uDrops : EndpointsUpdate :=
  { drops := [{ category := "cat", numerator := 3, denominator := 100 },
              { category := "u", numerator := 0, denominator := 100 }],
    localities := [locOut], raw := none }

/-- Wire payload around mGapClean (a resource that fails validation after
decoding). -/
def anyFail : AnyResource := { typeUrl := edsV3TypeUrl, value := some mGapClean }

/-- Envelope around anyFail. -/
def wFail : WrappedAny := WrappedAny.plain anyFail

/-- Wire payload around mOk. -/
def anyOk : AnyResource := { typeUrl := edsV3TypeUrl, value := some mOk }

/-- Envelope around anyOk. -/
def wOk : WrappedAny := WrappedAny.plain anyOk

/-- Update returned for wOk, with the raw backreference attached. -/
def uOkRaw : EndpointsUpdate :=
  { drops := [], localities := [locOut], raw := some anyOk }

theorem lookupPrio_insertLid_self (prios : List (Nat × List String)) (p : Nat) (s : String) :
    lookupPrio (insertLid prios p s) p = some ((lookupPrio prios p).getD [] ++ [s]) := by
  induction prios with
  | nil => simp [insertLid, lookupPrio]
  | cons hd tl ih =>
    obtain ⟨q, ss⟩ := hd
    by_cases h : q = p
    · subst h
      simp [insertLid, lookupPrio]
    · simp [insertLid, lookupPrio, h, ih]

theorem lookupPrio_insertLid_ne (prios : List (Nat × List String)) (p q : Nat) (s : String)
    (h : q ≠ p) : lookupPrio (insertLid prios p s) q = lookupPrio prios q := by
  induction prios with
  | nil => simp [insertLid, lookupPrio, Ne.symm h]
  | cons hd tl ih =>
    obtain ⟨r, ss⟩ := hd
    by_cases hr : r = p
    · subst hr
      simp [insertLid, lookupPrio, Ne.symm h]
    · by_cases hq : r = q
      · subst hq
        simp [insertLid, lookupPrio, hr]
      · simp [insertLid, lookupPrio, hr, hq, ih]

theorem mem_lookupPrio_insertLid (prios : List (Nat × List String)) (p q : Nat) (s s' : String)
    (hm : s' ∈ (lookupPrio prios q).getD []) :
    s' ∈ (lookupPrio (insertLid prios p s) q).getD [] := by
  by_cases h : q = p
  · subst h
    rw [lookupPrio_insertLid_self]
    exact List.mem_append_left _ hm
  · rw [lookupPrio_insertLid_ne _ _ _ _ h]
    exact hm

theorem prioKeys_insertLid (prios : List (Nat × List String)) (p : Nat) (s : String) :
    prioKeys (insertLid prios p s) =
      if (lookupPrio prios p).isSome then prioKeys prios else prioKeys prios ++ [p] := by
  induction prios with
  | nil => simp [insertLid, prioKeys, lookupPrio]
  | cons hd tl ih =>
    obtain ⟨q, ss⟩ := hd
    by_cases h : q = p
    · subst h
      simp [insertLid, prioKeys, lookupPrio]
    · rcases hset : lookupPrio tl p with _ | v <;>
        simp [insertLid, prioKeys, lookupPrio, h, hset] at ih ⊢ <;> exact ih

theorem lookupPrio_isSome_iff_mem (prios : List (Nat × List String)) (p : Nat) :
    (lookupPrio prios p).isSome ↔ p ∈ prioKeys prios := by
  induction prios with
  | nil => simp [lookupPrio, prioKeys]
  | cons hd tl ih =>
    obtain ⟨q, ss⟩ := hd
    by_cases h : q = p
    · subst h
      simp [lookupPrio, prioKeys]
    · simp [lookupPrio, prioKeys, h, Ne.symm h, ih]

theorem prioKeys_nodup_insertLid (prios : List (Nat × List String)) (p : Nat) (s : String)
    (h : (prioKeys prios).Nodup) : (prioKeys (insertLid prios p s)).Nodup := by
  rw [prioKeys_insertLid]
  rcases hset : lookupPrio prios p with _ | v
  · have hnm : p ∉ prioKeys prios := by
      intro hmem
      have := (lookupPrio_isSome_iff_mem prios p).mpr hmem
      rw [hset] at this
      simp at this
    simp [List.nodup_append, h, hnm]
  · simpa using h

theorem mem_prioKeys_iff_lt (prios : List (Nat × List String))
    (hnd : (prioKeys prios).Nodup)
    (hall : ∀ i < prios.length, (lookupPrio prios i).isSome) (p : Nat) :
    p ∈ prioKeys prios ↔ p < prios.length := by
  have hlen : (prioKeys prios).length = prios.length := List.length_map _ _
  have hsub : Finset.range prios.length ⊆ (prioKeys prios).toFinset := by
    intro i hi
    rw [Finset.mem_range] at hi
    rw [List.mem_toFinset]
    exact (lookupPrio_isSome_iff_mem prios i).mp (hall i hi)
  have hcard : (prioKeys prios).toFinset.card = prios.length := by
    rw [List.toFinset_card_of_nodup hnd, hlen]
  have heq : Finset.range prios.length = (prioKeys prios).toFinset :=
    Finset.eq_of_subset_of_card_le hsub (by rw [hcard, Finset.card_range])
  rw [← List.mem_toFinset, ← heq, Finset.mem_range]

theorem firstMissingPriority_none (prios : List (Nat × List String))
    (h : firstMissingPriority prios = none) :
    ∀ i < prios.length, (lookupPrio prios i).isSome := by
  intro i hi
  unfold firstMissingPriority at h
  rw [List.find?_eq_none] at h
  have hne := h i (List.mem_range.mpr hi)
  rcases hx : lookupPrio prios i with _ | v
  · exact absurd (by simp [hx]) hne
  · simp

theorem parseEndpoints_error_elim (l : List LbEndpoint) (e : ParseError)
    (h : parseEndpoints l = Except.error e) :
    e = ParseError.zeroWeightEndpoint ∧ ∃ ep ∈ l, getValue ep.loadBalancingWeight = 0 := by
  induction l with
  | nil => simp [parseEndpoints] at h
  | cons a rest ih =>
    simp only [parseEndpoints] at h
    split at h
    next hw =>
      refine ⟨?_, a, List.mem_cons_self a rest, hw⟩
      injection h with h1
      exact h1.symm
    next hw =>
      split at h
      next e' hr =>
        injection h with h1
        subst h1
        obtain ⟨he, ep, hmem, hep⟩ := ih hr
        exact ⟨he, ep, List.mem_cons_of_mem a hmem, hep⟩
      next eps hr => cases h

theorem parseEndpoints_ok_output (l : List LbEndpoint) (eps : List Endpoint)
    (h : parseEndpoints l = Except.ok eps) : ∀ ep ∈ eps, ep.weight ≠ 0 := by
  induction l generalizing eps with
  | nil =>
    simp [parseEndpoints] at h
    subst h
    simp
  | cons a rest ih =>
    simp only [parseEndpoints] at h
    split at h
    next hw => cases h
    next hw =>
      split at h
      next e' hr => cases h
      next eps' hr =>
        injection h with h1
        subst h1
        intro ep hmem
        rcases List.mem_cons.mp hmem with hhd | htl
        · subst hhd
          simpa using hw
        · exact ih eps' hr ep htl

theorem parseEndpoints_ok_input (l : List LbEndpoint) (eps : List Endpoint)
    (h : parseEndpoints l = Except.ok eps) :
    ∀ ep ∈ l, getValue ep.loadBalancingWeight ≠ 0 := by
  induction l generalizing eps with
  | nil => simp
  | cons a rest ih =>
    simp only [parseEndpoints] at h
    split at h
    next hw => cases h
    next hw =>
      split at h
      next e' hr => cases h
      next eps' hr =>
        intro ep hmem
        rcases List.mem_cons.mp hmem with hhd | htl
        · subst hhd
          exact hw
        · exact ih eps' hr ep htl

theorem parseLocalities_ok_identified (rest : List LocalityLbEndpoints) :
    ∀ (prios : List (Nat × List String)) (acc : List Locality) r,
    parseLocalities prios acc rest = Except.ok r → ∀ loc ∈ rest, loc.locality.isSome := by
  induction rest with
  | nil =>
    intro prios acc r _ loc hmem
    simp at hmem
  | cons a rest ih =>
    intro prios acc r h loc hmem
    simp only [parseLocalities] at h
    split at h
    next hl => cases h
    next l hl =>
      rcases List.mem_cons.mp hmem with hhd | htl
      · subst hhd
        simp [hl]
      · split at h
        next hw => exact ih _ _ _ h loc htl
        next hw =>
          split at h
          next hdup => cases h
          next hdup =>
            split at h
            next e hpe => cases h
            next eps hpe => exact ih _ _ _ h loc htl

theorem parseLocalities_error_missing (rest : List LocalityLbEndpoints) :
    ∀ (prios : List (Nat × List String)) (acc : List Locality),
    parseLocalities prios acc rest = Except.error ParseError.missingLocality →
    ∃ loc ∈ rest, loc.locality = none := by
  induction rest with
  | nil =>
    intro prios acc h
    simp [parseLocalities] at h
  | cons a rest ih =>
    intro prios acc h
    simp only [parseLocalities] at h
    split at h
    next hl => exact ⟨a, List.mem_cons_self a rest, hl⟩
    next l hl =>
      split at h
      next hw =>
        obtain ⟨loc, hmem, hloc⟩ := ih _ _ h
        exact ⟨loc, List.mem_cons_of_mem a hmem, hloc⟩
      next hw =>
        split at h
        next hdup => simp at h
        next hdup =>
          split at h
          next e hpe =>
            obtain ⟨he, -⟩ := parseEndpoints_error_elim _ _ hpe
            subst he
            simp at h
          next eps hpe =>
            obtain ⟨loc, hmem, hloc⟩ := ih _ _ h
            exact ⟨loc, List.mem_cons_of_mem a hmem, hloc⟩

theorem parseLocalities_error_zeroWeight (rest : List LocalityLbEndpoints) :
    ∀ (prios : List (Nat × List String)) (acc : List Locality),
    parseLocalities prios acc rest = Except.error ParseError.zeroWeightEndpoint →
    ∃ loc ∈ rest, survivorB loc = true ∧
      ∃ ep ∈ loc.lbEndpoints, getValue ep.loadBalancingWeight = 0 := by
  induction rest with
  | nil =>
    intro prios acc h
    simp [parseLocalities] at h
  | cons a rest ih =>
    intro prios acc h
    simp only [parseLocalities] at h
    split at h
    next hl => simp at h
    next l hl =>
      split at h
      next hw =>
        obtain ⟨loc, hmem, hrest⟩ := ih _ _ h
        exact ⟨loc, List.mem_cons_of_mem a hmem, hrest⟩
      next hw =>
        split at h
        next hdup => simp at h
        next hdup =>
          split at h
          next e hpe =>
            injection h with h1
            subst h1
            obtain ⟨-, ep, hmem, hep⟩ := parseEndpoints_error_elim _ _ hpe
            exact ⟨a, List.mem_cons_self a rest, by simp [survivorB, hl, hw], ep, hmem, hep⟩
          next eps hpe =>
            obtain ⟨loc, hmem, hrest⟩ := ih _ _ h
            exact ⟨loc, List.mem_cons_of_mem a hmem, hrest⟩

theorem parseLocalities_no_missingPriority (rest : List LocalityLbEndpoints) :
    ∀ (prios : List (Nat × List String)) (acc : List Locality) (i : Nat),
    parseLocalities prios acc rest ≠ Except.error (ParseError.missingPriority i) := by
  induction rest with
  | nil =>
    intro prios acc i h
    simp [parseLocalities] at h
  | cons a rest ih =>
    intro prios acc i h
    simp only [parseLocalities] at h
    split at h
    next hl => simp at h
    next l hl =>
      split at h
      next hw => exact ih _ _ _ h
      next hw =>
        split at h
        next hdup => simp at h
        next hdup =>
          split at h
          next e hpe =>
            obtain ⟨he, -⟩ := parseEndpoints_error_elim _ _ hpe
            subst he
            simp at h
          next eps hpe => exact ih _ _ _ h

theorem parseLocalities_ok_nocollision (rest : List LocalityLbEndpoints) :
    ∀ (prios : List (Nat × List String)) (acc : List Locality) r,
    parseLocalities prios acc rest = Except.ok r →
    ∀ loc ∈ rest, survivorB loc = true →
      localityKey loc ∉ (lookupPrio prios loc.priority).getD [] := by
  induction rest with
  | nil =>
    intro prios acc r _ loc hmem
    simp at hmem
  | cons a rest ih =>
    intro prios acc r h loc hmem hs
    simp only [parseLocalities] at h
    split at h
    next hl => cases h
    next l hl =>
      split at h
      next hw =>
        rcases List.mem_cons.mp hmem with hhd | htl
        · subst hhd
          simp [survivorB, hl, hw] at hs
        · exact ih _ _ _ h loc htl hs
      next hw =>
        split at h
        next hdup => cases h
        next hdup =>
          split at h
          next e hpe => cases h
          next eps hpe =>
            rcases List.mem_cons.mp hmem with hhd | htl
            · subst hhd
              simpa [localityKey, hl] using hdup
            · intro hmem'
              exact ih _ _ _ h loc htl hs (mem_lookupPrio_insertLid _ _ _ _ _ hmem')

theorem parseLocalities_ok_nodup (rest : List LocalityLbEndpoints) :
    ∀ (prios : List (Nat × List String)) (acc : List Locality) r,
    parseLocalities prios acc rest = Except.ok r →
    ∀ p s, ¬ dupPairAt rest p s := by
  induction rest with
  | nil =>
    intro prios acc r _ p s hdp
    obtain ⟨pre, a, mid, b, post, heq, -⟩ := hdp
    cases pre <;> simp at heq
  | cons c rest ih =>
    intro prios acc r h p s hdp
    obtain ⟨pre, a, mid, b, post, heq, hsa, hsb, hpa, hpb, hka, hkb⟩ := hdp
    cases pre with
    | nil =>
      simp only [List.nil_append, List.cons_append, List.cons.injEq] at heq
      obtain ⟨hca, hrest⟩ := heq
      subst hca
      simp only [parseLocalities] at h
      split at h
      next hl => cases h
      next l hl =>
        split at h
        next hw => simp [survivorB, hl, hw] at hsa
        next hw =>
          split at h
          next hdup => cases h
          next hdup =>
            split at h
            next e hpe => cases h
            next eps hpe =>
              have hbmem : b ∈ rest := by
                rw [hrest]
                exact List.mem_append_right _ (List.mem_cons_self _ _)
              have hnc := parseLocalities_ok_nocollision rest _ _ _ h b hbmem hsb
              apply hnc
              have hpp : b.priority = c.priority := by rw [hpb, ← hpa]
              rw [hpp, lookupPrio_insertLid_self]
              have hkey : localityKey b = LocalityID.canonicalString
                  { region := l.region, zone := l.zone, subZone := l.subZone } := by
                rw [hkb, ← hka]
                simp [localityKey, hl]
              rw [hkey]
              exact List.mem_append_right _ (List.mem_cons_self _ _)
    | cons c' pre' =>
      simp only [List.cons_append, List.cons.injEq] at heq
      obtain ⟨-, hrest⟩ := heq
      have hdp' : dupPairAt rest p s :=
        ⟨pre', a, mid, b, post, hrest, hsa, hsb, hpa, hpb, hka, hkb⟩
      simp only [parseLocalities] at h
      split at h
      next hl => cases h
      next l hl =>
        split at h
        next hw => exact ih _ _ _ h p s hdp'
        next hw =>
          split at h
          next hdup => cases h
          next hdup =>
            split at h
            next e hpe => cases h
            next eps hpe => exact ih _ _ _ h p s hdp'

theorem parseLocalities_error_duplicate (rest : List LocalityLbEndpoints) :
    ∀ (prios : List (Nat × List String)) (acc : List Locality) (s : String) (p : Nat),
    parseLocalities prios acc rest = Except.error (ParseError.duplicateLocality s p) →
    (∃ loc ∈ rest, survivorB loc = true ∧ loc.priority = p ∧ localityKey loc = s ∧
      s ∈ (lookupPrio prios p).getD []) ∨ dupPairAt rest p s := by
  induction rest with
  | nil =>
    intro prios acc s p h
    simp [parseLocalities] at h
  | cons a rest ih =>
    intro prios acc s p h
    simp only [parseLocalities] at h
    split at h
    next hl => simp at h
    next l hl =>
      split at h
      next hw =>
        rcases ih _ _ _ _ h with ⟨loc, hmem, hrest⟩ | hdp
        · exact Or.inl ⟨loc, List.mem_cons_of_mem a hmem, hrest⟩
        · obtain ⟨pre, x, mid, y, post, heq, hrr⟩ := hdp
          exact Or.inr ⟨a :: pre, x, mid, y, post, by simp [heq, List.append_assoc], hrr⟩
      next hw =>
        split at h
        next hdup =>
          injection h with h1
          injection h1 with hs hp
          refine Or.inl ⟨a, List.mem_cons_self a rest, by simp [survivorB, hl, hw], hp, ?_, ?_⟩
          · simp [localityKey, hl, hs]
          · rw [← hs, ← hp]
            exact hdup
        next hdup =>
          split at h
          next e hpe =>
            obtain ⟨he, -⟩ := parseEndpoints_error_elim _ _ hpe
            subst he
            simp at h
          next eps hpe =>
            rcases ih _ _ _ _ h with ⟨loc, hmem, hsl, hpl, hkl, hlook⟩ | hdp
            · by_cases hpeq : p = a.priority
              · subst hpeq
                rw [lookupPrio_insertLid_self] at hlook
                rcases List.mem_append.mp hlook with hold | hnew
                · exact Or.inl ⟨loc, List.mem_cons_of_mem a hmem, hsl, hpl, hkl, hold⟩
                · simp only [List.mem_singleton] at hnew
                  obtain ⟨mid', post', hrw⟩ := List.append_of_mem hmem
                  refine Or.inr ⟨[], a, mid', loc, post', by simp [hrw],
                    by simp [survivorB, hl, hw], hsl, rfl, hpl, ?_, hkl⟩
                  simp [localityKey, hl, hnew]
              · rw [lookupPrio_insertLid_ne _ _ _ _ hpeq] at hlook
                exact Or.inl ⟨loc, List.mem_cons_of_mem a hmem, hsl, hpl, hkl, hlook⟩
            · obtain ⟨pre, x, mid, y, post, heq, hrr⟩ := hdp
              exact Or.inr ⟨a :: pre, x, mid, y, post, by simp [heq, List.append_assoc], hrr⟩

theorem parseLocalities_ok_invariant (rest : List LocalityLbEndpoints) :
    ∀ (prios : List (Nat × List String)) (acc : List Locality) prios' acc',
    parseLocalities prios acc rest = Except.ok (prios', acc') →
    (prioKeys prios).Nodup →
    (∀ p, (lookupPrio prios p).isSome ↔ p ∈ acc.map Locality.priority) →
    (prioKeys prios').Nodup ∧
      ∀ p, (lookupPrio prios' p).isSome ↔ p ∈ acc'.map Locality.priority := by
  induction rest with
  | nil =>
    intro prios acc prios' acc' h hnd hinv
    simp only [parseLocalities, Except.ok.injEq, Prod.mk.injEq] at h
    obtain ⟨h1, h2⟩ := h
    subst h1
    subst h2
    exact ⟨hnd, hinv⟩
  | cons a rest ih =>
    intro prios acc prios' acc' h hnd hinv
    simp only [parseLocalities] at h
    split at h
    next hl => cases h
    next l hl =>
      split at h
      next hw => exact ih _ _ _ _ h hnd hinv
      next hw =>
        split at h
        next hdup => cases h
        next hdup =>
          split at h
          next e hpe => cases h
          next eps hpe =>
            refine ih _ _ _ _ h (prioKeys_nodup_insertLid _ _ _ hnd) ?_
            intro p
            by_cases hp : p = a.priority
            · subst hp
              rw [lookupPrio_insertLid_self]
              simp
            · rw [lookupPrio_insertLid_ne _ _ _ _ hp]
              simp only [List.map_append, List.mem_append, List.map_cons, List.map_nil,
                List.mem_singleton, List.mem_cons]
              rw [hinv p]
              simp [hp]

theorem parseLocalities_ok_priorities (rest : List LocalityLbEndpoints) :
    ∀ (prios : List (Nat × List String)) (acc : List Locality) prios' acc',
    parseLocalities prios acc rest = Except.ok (prios', acc') →
    acc'.map Locality.priority =
      acc.map Locality.priority ++ (rest.filter survivorB).map LocalityLbEndpoints.priority := by
  induction rest with
  | nil =>
    intro prios acc prios' acc' h
    simp only [parseLocalities, Except.ok.injEq, Prod.mk.injEq] at h
    obtain ⟨-, h2⟩ := h
    subst h2
    simp
  | cons a rest ih =>
    intro prios acc prios' acc' h
    simp only [parseLocalities] at h
    split at h
    next hl => cases h
    next l hl =>
      split at h
      next hw =>
        have hsb : survivorB a = false := by simp [survivorB, hl, hw]
        rw [ih _ _ _ _ h, List.filter_cons, hsb]
        simp
      next hw =>
        have hsb : survivorB a = true := by simp [survivorB, hl, hw]
        split at h
        next hdup => cases h
        next hdup =>
          split at h
          next e hpe => cases h
          next eps hpe =>
            rw [ih _ _ _ _ h, List.filter_cons, hsb]
            simp

theorem parseLocalities_ok_epweights (rest : List LocalityLbEndpoints) :
    ∀ (prios : List (Nat × List String)) (acc : List Locality) r,
    parseLocalities prios acc rest = Except.ok r →
    ∀ loc ∈ rest, survivorB loc = true →
      ∀ ep ∈ loc.lbEndpoints, getValue ep.loadBalancingWeight ≠ 0 := by
  induction rest with
  | nil =>
    intro prios acc r _ loc hmem
    simp at hmem
  | cons a rest ih =>
    intro prios acc r h loc hmem hs
    simp only [parseLocalities] at h
    split at h
    next hl => cases h
    next l hl =>
      split at h
      next hw =>
        rcases List.mem_cons.mp hmem with hhd | htl
        · subst hhd
          simp [survivorB, hl, hw] at hs
        · exact ih _ _ _ h loc htl hs
      next hw =>
        split at h
        next hdup => cases h
        next hdup =>
          split at h
          next e hpe => cases h
          next eps hpe =>
            rcases List.mem_cons.mp hmem with hhd | htl
            · subst hhd
              exact parseEndpoints_ok_input _ _ hpe
            · exact ih _ _ _ h loc htl hs

theorem parseLocalities_ok_outweights (rest : List LocalityLbEndpoints) :
    ∀ (prios : List (Nat × List String)) (acc : List Locality) prios' acc',
    parseLocalities prios acc rest = Except.ok (prios', acc') →
    (∀ loc ∈ acc, ∀ ep ∈ loc.endpoints, ep.weight ≠ 0) →
    ∀ loc ∈ acc', ∀ ep ∈ loc.endpoints, ep.weight ≠ 0 := by
  induction rest with
  | nil =>
    intro prios acc prios' acc' h hacc
    simp only [parseLocalities, Except.ok.injEq, Prod.mk.injEq] at h
    obtain ⟨-, h2⟩ := h
    subst h2
    exact hacc
  | cons a rest ih =>
    intro prios acc prios' acc' h hacc
    simp only [parseLocalities] at h
    split at h
    next hl => cases h
    next l hl =>
      split at h
      next hw => exact ih _ _ _ _ h hacc
      next hw =>
        split at h
        next hdup => cases h
        next hdup =>
          split at h
          next e hpe => cases h
          next eps hpe =>
            refine ih _ _ _ _ h ?_
            intro loc hmem ep hep
            rcases List.mem_append.mp hmem with hold | hnew
            · exact hacc loc hold ep hep
            · simp only [List.mem_singleton] at hnew
              subst hnew
              exact parseEndpoints_ok_output _ _ hpe ep hep

theorem noDupList_no_dupPair (l : List LocalityLbEndpoints)
    (h : noDupList l = true) (p : Nat) (s : String) : ¬ dupPairAt l p s := by
  induction l with
  | nil =>
    rintro ⟨pre, a, mid, b, post, heq, -⟩
    cases pre <;> simp at heq
  | cons c rest ih =>
    simp only [noDupList, Bool.and_eq_true, List.all_eq_true] at h
    obtain ⟨hall, hrest⟩ := h
    rintro ⟨pre, a, mid, b, post, heq, hsa, hsb, hpa, hpb, hka, hkb⟩
    cases pre with
    | nil =>
      simp only [List.nil_append, List.cons_append, List.cons.injEq] at heq
      obtain ⟨hca, hr⟩ := heq
      subst hca
      have hbmem : b ∈ rest := by
        rw [hr]
        exact List.mem_append_right _ (List.mem_cons_self _ _)
      have hok := hall b hbmem
      simp [pairOK, hsa, hsb, hpa, hpb, hka, hkb] at hok
    | cons c' pre' =>
      simp only [List.cons_append, List.cons.injEq] at heq
      obtain ⟨-, hr⟩ := heq
      exact ih hrest ⟨pre', a, mid, b, post, hr, hsa, hsb, hpa, hpb, hka, hkb⟩

theorem parseEDSRespProto_error_empty (m : ClusterLoadAssignment)
    (h : (parseEDSRespProto m).2 ≠ none) :
    (parseEDSRespProto m).1 = EndpointsUpdate.empty := by
  rcases hpl : parseLocalities [] [] m.endpoints with e | ⟨prios, locs⟩
  · simp [parseEDSRespProto, hpl]
  · rcases hfm : firstMissingPriority prios with _ | i
    · exact absurd (by simp [parseEDSRespProto, hpl, hfm]) h
    · simp [parseEDSRespProto, hpl, hfm]

theorem parseEDSRespProto_ok_elim (m : ClusterLoadAssignment) (u : EndpointsUpdate)
    (h : parseEDSRespProto m = (u, none)) :
    ∃ prios locs, parseLocalities [] [] m.endpoints = Except.ok (prios, locs) ∧
      firstMissingPriority prios = none ∧
      u = { drops := (getDropOverloads m).map parseDropPolicy, localities := locs,
            raw := none } := by
  rcases hpl : parseLocalities [] [] m.endpoints with e | ⟨prios, locs⟩
  · simp [parseEDSRespProto, hpl] at h
  · rcases hfm : firstMissingPriority prios with _ | i
    · refine ⟨prios, locs, rfl, hfm, ?_⟩
      simp only [parseEDSRespProto, hpl, hfm, Prod.mk.injEq] at h
      exact h.1.symm
    · simp [parseEDSRespProto, hpl, hfm] at h

theorem parseEDSRespProto_error_elim (m : ClusterLoadAssignment) (e : ParseError)
    (h : (parseEDSRespProto m).2 = some e) :
    parseLocalities [] [] m.endpoints = Except.error e ∨
      ∃ prios locs i, parseLocalities [] [] m.endpoints = Except.ok (prios, locs) ∧
        firstMissingPriority prios = some i ∧ e = ParseError.missingPriority i := by
  rcases hpl : parseLocalities [] [] m.endpoints with e' | ⟨prios, locs⟩
  · left
    simp only [parseEDSRespProto, hpl, Option.some.injEq] at h
    rw [h]
  · right
    rcases hfm : firstMissingPriority prios with _ | i
    · simp [parseEDSRespProto, hpl, hfm] at h
    · refine ⟨prios, locs, i, rfl, hfm, ?_⟩
      simp only [parseEDSRespProto, hpl, hfm, Option.some.injEq] at h
      exact h.symm

theorem parseEDSRespProto_some_of_not_none (m : ClusterLoadAssignment)
    (h : (parseEDSRespProto m).2 ≠ none) : ∃ e, (parseEDSRespProto m).2 = some e := by
  rcases hx : (parseEDSRespProto m).2 with _ | e
  · exact absurd hx h
  · exact ⟨e, rfl⟩

theorem allIdentified_forall (l : List LocalityLbEndpoints) (h : allIdentified l = true) :
    ∀ loc ∈ l, loc.locality.isSome = true := by
  simpa only [allIdentified, List.all_eq_true] using h

theorem survivorEndpointsPositive_forall (l : List LocalityLbEndpoints)
    (h : survivorEndpointsPositive l = true) :
    ∀ loc ∈ l, survivorB loc = true →
      ∀ ep ∈ loc.lbEndpoints, getValue ep.loadBalancingWeight ≠ 0 := by
  simp only [survivorEndpointsPositive, List.all_eq_true] at h
  intro loc hmem hs ep hep
  have hx := h loc hmem
  rw [hs] at hx
  simp only [Bool.not_true, Bool.false_or, List.all_eq_true] at hx
  simpa using hx ep hep

theorem parseEDSRespProto_error_pair (m : ClusterLoadAssignment) (e : ParseError)
    (h : (parseEDSRespProto m).2 = some e) :
    parseEDSRespProto m = (EndpointsUpdate.empty, some e) := by
  have h1 := parseEDSRespProto_error_empty m (by simp [h])
  rw [← h1, ← h]

theorem parseEDSRespProto_none_pair (m : ClusterLoadAssignment)
    (h : (parseEDSRespProto m).2 = none) :
    parseEDSRespProto m = ((parseEDSRespProto m).1, none) := by
  rw [← h]

theorem parseEDSRespProto_error_kind (m : ClusterLoadAssignment) (e : ParseError)
    (h : (parseEDSRespProto m).2 = some e)
    (h1 : allIdentified m.endpoints = true)
    (h2 : survivorEndpointsPositive m.endpoints = true)
    (h3 : noDupList m.endpoints = true) :
    ∃ i, e = ParseError.missingPriority i := by
  rcases parseEDSRespProto_error_elim m e h with herr | ⟨prios, locs, i, hok, hfm, hei⟩
  · cases e with
    | missingLocality =>
      obtain ⟨loc, hmem, hnone⟩ := parseLocalities_error_missing m.endpoints _ _ herr
      have := allIdentified_forall m.endpoints h1 loc hmem
      rw [hnone] at this
      simp at this
    | duplicateLocality s p =>
      rcases parseLocalities_error_duplicate m.endpoints _ _ _ _ herr with
        ⟨loc, hmem, -, -, -, hlook⟩ | hdp
      · simp [lookupPrio] at hlook
      · exact absurd hdp (noDupList_no_dupPair m.endpoints h3 p s)
    | zeroWeightEndpoint =>
      obtain ⟨loc, hmem, hs, ep, hepmem, hep0⟩ :=
        parseLocalities_error_zeroWeight m.endpoints _ _ herr
      exact absurd hep0 (survivorEndpointsPositive_forall m.endpoints h2 loc hmem hs ep hepmem)
    | missingPriority i => exact ⟨i, rfl⟩
  · exact ⟨i, hei⟩

theorem parseEDSRespProto_ok_contiguous (m : ClusterLoadAssignment) (u : EndpointsUpdate)
    (h : parseEDSRespProto m = (u, none)) :
    ∃ k, ∀ p, p ∈ u.localities.map Locality.priority ↔ p < k := by
  obtain ⟨prios, locs, hpl, hfm, hu⟩ := parseEDSRespProto_ok_elim m u h
  obtain ⟨hnd, hiff⟩ := parseLocalities_ok_invariant m.endpoints [] [] prios locs hpl
    (by simp [prioKeys]) (by simp [lookupPrio])
  have hall := firstMissingPriority_none prios hfm
  refine ⟨prios.length, fun p => ?_⟩
  rw [hu]
  show p ∈ locs.map Locality.priority ↔ p < prios.length
  rw [← hiff p, lookupPrio_isSome_iff_mem]
  exact mem_prioKeys_iff_lt prios hnd hall p

theorem parseEDSRespProto_ok_survivorPriorities (m : ClusterLoadAssignment)
    (u : EndpointsUpdate) (h : parseEDSRespProto m = (u, none)) :
    u.localities.map Locality.priority = survivorPriorities m := by
  obtain ⟨prios, locs, hpl, hfm, hu⟩ := parseEDSRespProto_ok_elim m u h
  have hs := parseLocalities_ok_priorities m.endpoints [] [] prios locs hpl
  rw [hu]
  show locs.map Locality.priority = survivorPriorities m
  rw [hs]
  simp [survivorPriorities]

theorem survivorB_eq_true (loc : LocalityLbEndpoints) :
    survivorB loc = true ↔
      loc.locality.isSome = true ∧ getValue loc.loadBalancingWeight ≠ 0 := by
  simp [survivorB]

theorem localityKey_eq (loc : LocalityLbEndpoints) (l : LocalityProto)
    (hl : loc.locality = some l) :
    localityKey loc = LocalityID.canonicalString
      { region := l.region, zone := l.zone, subZone := l.subZone } := by
  simp [localityKey, hl]

theorem mem_lookupPrio_insertLid_iff (prios : List (Nat × List String))
    (q p : Nat) (t s : String) :
    s ∈ (lookupPrio (insertLid prios q t) p).getD [] ↔
      s ∈ (lookupPrio prios p).getD [] ∨ (p = q ∧ s = t) := by
  by_cases h : p = q
  · subst h
    rw [lookupPrio_insertLid_self]
    simp [List.mem_append]
  · rw [lookupPrio_insertLid_ne _ _ _ _ h]
    simp [h]

theorem parseEndpoints_ok_of_nonzero (l : List LbEndpoint)
    (h : ∀ ep ∈ l, getValue ep.loadBalancingWeight ≠ 0) :
    ∃ eps, parseEndpoints l = Except.ok eps := by
  induction l with
  | nil => exact ⟨[], rfl⟩
  | cons a rest ih =>
    have ha := h a (List.mem_cons_self a rest)
    obtain ⟨eps, heps⟩ := ih fun ep hep => h ep (List.mem_cons_of_mem a hep)
    refine ⟨{ address := parseAddress (getLbSocketAddress a),
              healthStatus := a.healthStatus,
              weight := getValue a.loadBalancingWeight } :: eps, ?_⟩
    simp [parseEndpoints, ha, heps]

theorem parseEndpoints_error_of_zero (l : List LbEndpoint)
    (h : ∃ ep ∈ l, getValue ep.loadBalancingWeight = 0) :
    parseEndpoints l = Except.error ParseError.zeroWeightEndpoint := by
  induction l with
  | nil => simp at h
  | cons a rest ih =>
    obtain ⟨ep, hmem, hz⟩ := h
    by_cases ha : getValue a.loadBalancingWeight = 0
    · simp [parseEndpoints, ha]
    · rcases List.mem_cons.mp hmem with hhd | htl
      · subst hhd
        exact absurd hz ha
      · have hrest := ih ⟨ep, htl, hz⟩
        simp [parseEndpoints, ha, hrest]

theorem list_split_first {α : Type} (P : α → Prop) (l : List α) :
    (∀ x ∈ l, P x) ∨
      ∃ l₁ x l₂, l = l₁ ++ x :: l₂ ∧ ¬ P x ∧ ∀ y ∈ l₁, P y := by
  induction l with
  | nil => exact Or.inl (by simp)
  | cons a l ih =>
    by_cases ha : P a
    · rcases ih with hall | ⟨l₁, x, l₂, heq, hx, h₁⟩
      · left
        intro y hy
        rcases List.mem_cons.mp hy with hhd | htl
        · subst hhd
          exact ha
        · exact hall y htl
      · right
        refine ⟨a :: l₁, x, l₂, by rw [heq, List.cons_append], hx, ?_⟩
        intro y hy
        rcases List.mem_cons.mp hy with hhd | htl
        · subst hhd
          exact ha
        · exact h₁ y htl
    · exact Or.inr ⟨[], a, l, rfl, ha, by simp⟩

theorem noDupList_append_left (l₁ l₂ : List LocalityLbEndpoints)
    (h : noDupList (l₁ ++ l₂) = true) : noDupList l₁ = true := by
  induction l₁ with
  | nil => rfl
  | cons c l₁ ih =>
    simp only [List.cons_append, noDupList, Bool.and_eq_true, List.all_eq_true] at h ⊢
    obtain ⟨hall, hrest⟩ := h
    exact ⟨fun x hx => hall x (List.mem_append_left _ hx), ih hrest⟩

theorem noDupList_append_cons (l₁ : List LocalityLbEndpoints)
    (x : LocalityLbEndpoints) (l₂ : List LocalityLbEndpoints)
    (h : noDupList (l₁ ++ x :: l₂) = true) : noDupList (l₁ ++ [x]) = true := by
  induction l₁ with
  | nil => simp [noDupList]
  | cons c l₁ ih =>
    simp only [List.cons_append, noDupList, Bool.and_eq_true, List.all_eq_true] at h ⊢
    obtain ⟨hall, hrest⟩ := h
    refine ⟨fun y hy => ?_, ih hrest⟩
    rcases List.mem_append.mp hy with hy₁ | hy₂
    · exact hall y (List.mem_append_left _ hy₁)
    · simp only [List.mem_singleton] at hy₂
      subst hy₂
      exact hall y (List.mem_append_right _ (List.mem_cons_self _ _))

theorem noDupList_pairOK_append (l₁ : List LocalityLbEndpoints)
    (x : LocalityLbEndpoints) (h : noDupList (l₁ ++ [x]) = true) :
    ∀ y ∈ l₁, pairOK y x = true := by
  induction l₁ with
  | nil => simp
  | cons c l₁ ih =>
    simp only [List.cons_append, noDupList, Bool.and_eq_true, List.all_eq_true] at h
    obtain ⟨hall, hrest⟩ := h
    intro y hy
    rcases List.mem_cons.mp hy with hhd | htl
    · subst hhd
      exact hall x (List.mem_append_right _ (List.mem_cons_self _ _))
    · exact ih hrest y htl

theorem dupPairAt_cons (c : LocalityLbEndpoints) (l : List LocalityLbEndpoints)
    (p : Nat) (s : String) (h : dupPairAt l p s) : dupPairAt (c :: l) p s := by
  obtain ⟨pre, a, mid, b, post, heq, hrest⟩ := h
  exact ⟨c :: pre, a, mid, b, post, by simp [heq, List.append_assoc], hrest⟩

theorem dupPairAt_of_head_mem (c b : LocalityLbEndpoints)
    (l : List LocalityLbEndpoints) (p : Nat) (s : String)
    (hsc : survivorB c = true) (hsb : survivorB b = true)
    (hpc : c.priority = p) (hpb : b.priority = p)
    (hkc : localityKey c = s) (hkb : localityKey b = s)
    (hmem : b ∈ l) : dupPairAt (c :: l) p s := by
  obtain ⟨mid, post, hrw⟩ := List.append_of_mem hmem
  exact ⟨[], c, mid, b, post, by simp [hrw], hsc, hsb, hpc, hpb, hkc, hkb⟩

theorem parseEDSRespProto_of_locError (m : ClusterLoadAssignment) (e : ParseError)
    (h : parseLocalities [] [] m.endpoints = Except.error e) :
    parseEDSRespProto m = (EndpointsUpdate.empty, some e) := by
  simp [parseEDSRespProto, h]

theorem parseLocalities_reach (rest : List LocalityLbEndpoints)
    (pre : List LocalityLbEndpoints) :
    ∀ (prios : List (Nat × List String)) (acc : List Locality),
    (∀ loc ∈ pre, loc.locality.isSome = true) →
    (∀ loc ∈ pre, survivorB loc = true →
      ∀ ep ∈ loc.lbEndpoints, getValue ep.loadBalancingWeight ≠ 0) →
    (∃ s p, parseLocalities prios acc (pre ++ rest) =
        Except.error (ParseError.duplicateLocality s p) ∧
      (dupPairAt pre p s ∨ ∃ loc ∈ pre, survivorB loc = true ∧ loc.priority = p ∧
        localityKey loc = s ∧ s ∈ (lookupPrio prios p).getD [])) ∨
    (∃ prios' acc', parseLocalities prios acc (pre ++ rest) =
        parseLocalities prios' acc' rest ∧
      ∀ p s, s ∈ (lookupPrio prios' p).getD [] ↔
        (s ∈ (lookupPrio prios p).getD [] ∨
          ∃ loc ∈ pre, survivorB loc = true ∧ loc.priority = p ∧ localityKey loc = s)) := by
  induction pre with
  | nil =>
    intro prios acc _ _
    right
    exact ⟨prios, acc, by simp, fun p s => by simp⟩
  | cons c pre ih =>
    intro prios acc hid heps
    have hid' : ∀ loc ∈ pre, loc.locality.isSome = true :=
      fun loc hm => hid loc (List.mem_cons_of_mem c hm)
    have heps' : ∀ loc ∈ pre, survivorB loc = true →
        ∀ ep ∈ loc.lbEndpoints, getValue ep.loadBalancingWeight ≠ 0 :=
      fun loc hm => heps loc (List.mem_cons_of_mem c hm)
    have hlc := hid c (List.mem_cons_self c pre)
    rcases hl : c.locality with _ | l
    · rw [hl] at hlc
      simp at hlc
    · by_cases hw : getValue c.loadBalancingWeight = 0
      · have hsc : survivorB c = false := by simp [survivorB, hl, hw]
        have hstep : parseLocalities prios acc ((c :: pre) ++ rest) =
            parseLocalities prios acc (pre ++ rest) := by
          simp [parseLocalities, hl, hw]
        rcases ih prios acc hid' heps' with ⟨s, p, herr, hcase⟩ | ⟨prios', acc', heq, hiff⟩
        · left
          refine ⟨s, p, by rw [hstep]; exact herr, ?_⟩
          rcases hcase with hdp | ⟨loc, hm, hrest⟩
          · exact Or.inl (dupPairAt_cons c pre p s hdp)
          · exact Or.inr ⟨loc, List.mem_cons_of_mem c hm, hrest⟩
        · right
          refine ⟨prios', acc', by rw [hstep]; exact heq, fun p s => ?_⟩
          rw [hiff p s]
          constructor
          · rintro (hmem | ⟨loc, hm, hrest⟩)
            · exact Or.inl hmem
            · exact Or.inr ⟨loc, List.mem_cons_of_mem c hm, hrest⟩
          · rintro (hmem | ⟨loc, hm, hsv, hrest⟩)
            · exact Or.inl hmem
            · rcases List.mem_cons.mp hm with hhd | htl
              · subst hhd
                rw [hsc] at hsv
                cases hsv
              · exact Or.inr ⟨loc, htl, hsv, hrest⟩
      · have hsc : survivorB c = true := by simp [survivorB, hl, hw]
        have hkc : localityKey c = LocalityID.canonicalString
            { region := l.region, zone := l.zone, subZone := l.subZone } :=
          localityKey_eq c l hl
        by_cases hdup : LocalityID.canonicalString
            { region := l.region, zone := l.zone, subZone := l.subZone } ∈
            (lookupPrio prios c.priority).getD []
        · left
          refine ⟨LocalityID.canonicalString
              { region := l.region, zone := l.zone, subZone := l.subZone },
            c.priority, by simp [parseLocalities, hl, hw, hdup],
            Or.inr ⟨c, List.mem_cons_self c pre, hsc, rfl, hkc, hdup⟩⟩
        · have hepc := heps c (List.mem_cons_self c pre) hsc
          obtain ⟨eps, hpe⟩ := parseEndpoints_ok_of_nonzero c.lbEndpoints hepc
          have hstep : parseLocalities prios acc ((c :: pre) ++ rest) =
              parseLocalities
                (insertLid prios c.priority (LocalityID.canonicalString
                  { region := l.region, zone := l.zone, subZone := l.subZone }))
                (acc ++ [{ id := { region := l.region, zone := l.zone, subZone := l.subZone },
                           endpoints := eps,
                           weight := getValue c.loadBalancingWeight,
                           priority := c.priority }]) (pre ++ rest) := by
            simp [parseLocalities, hl, hw, hdup, hpe]
          rcases ih (insertLid prios c.priority (LocalityID.canonicalString
              { region := l.region, zone := l.zone, subZone := l.subZone }))
              (acc ++ [{ id := { region := l.region, zone := l.zone, subZone := l.subZone },
                         endpoints := eps,
                         weight := getValue c.loadBalancingWeight,
                         priority := c.priority }]) hid' heps' with
            ⟨s, p, herr, hcase⟩ | ⟨prios', acc', heq, hiff⟩
          · left
            refine ⟨s, p, by rw [hstep]; exact herr, ?_⟩
            rcases hcase with hdp | ⟨loc, hm, hsv, hp, hk, hmem⟩
            · exact Or.inl (dupPairAt_cons c pre p s hdp)
            · rcases (mem_lookupPrio_insertLid_iff prios c.priority p _ s).mp hmem with
                hold | ⟨hpp, hss⟩
              · exact Or.inr ⟨loc, List.mem_cons_of_mem c hm, hsv, hp, hk, hold⟩
              · refine Or.inl (dupPairAt_of_head_mem c loc pre p s hsc hsv
                  hpp.symm hp ?_ hk hm)
                rw [hkc, ← hss]
          · right
            refine ⟨prios', acc', by rw [hstep]; exact heq, fun p s => ?_⟩
            rw [hiff p s, mem_lookupPrio_insertLid_iff]
            constructor
            · rintro ((hmem | ⟨hpp, hss⟩) | ⟨loc, hm, hrest⟩)
              · exact Or.inl hmem
              · refine Or.inr ⟨c, List.mem_cons_self c pre, hsc, hpp.symm, ?_⟩
                rw [hkc, ← hss]
              · exact Or.inr ⟨loc, List.mem_cons_of_mem c hm, hrest⟩
            · rintro (hmem | ⟨loc, hm, hsv, hp, hk⟩)
              · exact Or.inl (Or.inl hmem)
              · rcases List.mem_cons.mp hm with hhd | htl
                · subst hhd
                  refine Or.inl (Or.inr ⟨hp.symm, ?_⟩)
                  rw [← hk, hkc]
                · exact Or.inr ⟨loc, htl, hsv, hp, hk⟩

theorem parseEDSRespProto_zeroWeight_core (m : ClusterLoadAssignment)
    (pre : List LocalityLbEndpoints) (z : LocalityLbEndpoints)
    (post : List LocalityLbEndpoints)
    (heq : m.endpoints = pre ++ z :: post)
    (hsz : survivorB z = true)
    (hzep : ∃ ep ∈ z.lbEndpoints, getValue ep.loadBalancingWeight = 0)
    (hid : ∀ loc ∈ pre, loc.locality.isSome = true)
    (heps : ∀ loc ∈ pre, survivorB loc = true →
      ∀ ep ∈ loc.lbEndpoints, getValue ep.loadBalancingWeight ≠ 0)
    (hnd : noDupList (pre ++ [z]) = true) :
    parseEDSRespProto m = (EndpointsUpdate.empty, some ParseError.zeroWeightEndpoint) := by
  rcases parseLocalities_reach (z :: post) pre [] [] hid heps with
    ⟨s, p, herr, hcase⟩ | ⟨prios', acc', hstep, hiff⟩
  · exfalso
    rcases hcase with hdp | ⟨loc, hm, -, -, -, hlook⟩
    · exact noDupList_no_dupPair pre (noDupList_append_left pre [z] hnd) p s hdp
    · simp [lookupPrio] at hlook
  · obtain ⟨hzid, hzw⟩ := (survivorB_eq_true z).mp hsz
    rcases hlz : z.locality with _ | lz
    · rw [hlz] at hzid
      simp at hzid
    · have hkz := localityKey_eq z lz hlz
      have hnot : LocalityID.canonicalString
          { region := lz.region, zone := lz.zone, subZone := lz.subZone } ∉
          (lookupPrio prios' z.priority).getD [] := by
        intro hmem
        rcases (hiff z.priority _).mp hmem with habs | ⟨loc, hm, hsv, hp, hk⟩
        · simp [lookupPrio] at habs
        · have hpo := noDupList_pairOK_append pre z hnd loc hm
          have hfalse : pairOK loc z = false := by
            simp [pairOK, hsv, hsz, hp, hk, hkz]
          rw [hfalse] at hpo
          cases hpo
      have hpez := parseEndpoints_error_of_zero z.lbEndpoints hzep
      have hfin : parseLocalities prios' acc' (z :: post) =
          Except.error ParseError.zeroWeightEndpoint := by
        simp [parseLocalities, hlz, hzw, hnot, hpez]
      apply parseEDSRespProto_of_locError
      rw [heq, hstep]
      exact hfin

theorem parseEDSRespProto_missing_core (m : ClusterLoadAssignment)
    (pre : List LocalityLbEndpoints) (n : LocalityLbEndpoints)
    (post : List LocalityLbEndpoints)
    (heq : m.endpoints = pre ++ n :: post)
    (hn : n.locality = none)
    (hid : ∀ loc ∈ pre, loc.locality.isSome = true)
    (heps : ∀ loc ∈ pre, survivorB loc = true →
      ∀ ep ∈ loc.lbEndpoints, getValue ep.loadBalancingWeight ≠ 0)
    (hnd : noDupList pre = true) :
    parseEDSRespProto m = (EndpointsUpdate.empty, some ParseError.missingLocality) := by
  rcases parseLocalities_reach (n :: post) pre [] [] hid heps with
    ⟨s, p, herr, hcase⟩ | ⟨prios', acc', hstep, -⟩
  · exfalso
    rcases hcase with hdp | ⟨loc, hm, -, -, -, hlook⟩
    · exact noDupList_no_dupPair pre hnd p s hdp
    · simp [lookupPrio] at hlook
  · have hfin : parseLocalities prios' acc' (n :: post) =
        Except.error ParseError.missingLocality := by
      simp [parseLocalities, hn]
    apply parseEDSRespProto_of_locError
    rw [heq, hstep]
    exact hfin

/-- C1 (amended): for every successful parse the set of priorities of the
returned localities is Finset.range k for some k (a gap-free initial
segment, empty when there are no localities); and an input whose surviving
localities occupy a gapped priority set fails with a missing-priority error
provided no other validation failure (missing identity, zero-weight
endpoint, duplicate locality) preempts it. -/
theorem claim_c1 (m : ClusterLoadAssignment) :
    (∀ u, parseEDSRespProto m = (u, none) →
      ∃ k, (u.localities.map Locality.priority).toFinset = Finset.range k) ∧
    (allIdentified m.endpoints = true →
     survivorEndpointsPositive m.endpoints = true →
     noDupList m.endpoints = true →
     (∃ q ∈ survivorPriorities m, ∃ p ∈ List.range q, p ∉ survivorPriorities m) →
     ∃ i, parseEDSRespProto m = (EndpointsUpdate.empty, some (ParseError.missingPriority i))) := by
  constructor
  · intro u h
    obtain ⟨k, hk⟩ := parseEDSRespProto_ok_contiguous m u h
    refine ⟨k, ?_⟩
    ext p
    simp only [List.mem_toFinset, Finset.mem_range]
    exact hk p
  · intro h1 h2 h3 hgap
    rcases hres : (parseEDSRespProto m).2 with _ | e
    · exfalso
      have hpair := parseEDSRespProto_none_pair m hres
      obtain ⟨k, hk⟩ := parseEDSRespProto_ok_contiguous m _ hpair
      have hsurv := parseEDSRespProto_ok_survivorPriorities m _ hpair
      obtain ⟨q, hq, p, hpr, hpn⟩ := hgap
      rw [← hsurv] at hq hpn
      have hqk : q < k := (hk q).mp hq
      have hpq : p < q := List.mem_range.mp hpr
      exact hpn ((hk p).mpr (lt_trans hpq hqk))
    · obtain ⟨i, hi⟩ := parseEDSRespProto_error_kind m e hres h1 h2 h3
      subst hi
      exact ⟨i, parseEDSRespProto_error_pair m _ hres⟩

/-- Witness for C1: mOk parses with a contiguous priority set and mGapClean
(priorities 0 and 2, otherwise valid) fails with a missing-priority
error. -/
theorem claim_c1_witness :
    (∃ k, (uOk.localities.map Locality.priority).toFinset = Finset.range k) ∧
    ∃ i, parseEDSRespProto mGapClean =
      (EndpointsUpdate.empty, some (ParseError.missingPriority i)) := by
  constructor
  · exact (claim_c1 mOk).1 uOk (by decide)
  · exact (claim_c1 mGapClean).2 (by decide) (by decide) (by decide) (by decide)

/-- Counterexample to C1 as stated: the surviving localities of mGapZero
occupy the gapped priority set 0 and 2, yet the parser reports the
zero-weight-endpoint error of the first locality, not a missing-priority
error. -/
theorem claim_c1_counterexample :
    (∃ q ∈ survivorPriorities mGapZero, ∃ p ∈ List.range q,
      p ∉ survivorPriorities mGapZero) ∧
    parseEDSRespProto mGapZero = (EndpointsUpdate.empty, some ParseError.zeroWeightEndpoint) ∧
    ParseError.zeroWeightEndpoint ≠ ParseError.missingPriority 1 := by
  refine ⟨by decide, by decide, by decide⟩

/-- C2 (amended): a duplicate-locality error implies two surviving entries
with the same canonical identity string at the same priority; conversely,
whenever such a pair exists whose second member is preceded only by
identified entries whose surviving members carry only non-zero-weight
endpoints (so no missing-identity or zero-weight-endpoint failure preempts
it earlier in the scan), the parser returns a duplicate-locality error; in
particular a same-identity pair at two different priorities alone never
produces a duplicate error. -/
theorem claim_c2 (m : ClusterLoadAssignment) :
    (∀ s p, (parseEDSRespProto m).2 = some (ParseError.duplicateLocality s p) →
      dupPairAt m.endpoints p s) ∧
    (∀ pre a mid b post,
      m.endpoints = pre ++ a :: mid ++ b :: post →
      survivorB a = true → survivorB b = true →
      a.priority = b.priority → localityKey a = localityKey b →
      (∀ loc ∈ pre ++ a :: mid, loc.locality.isSome = true) →
      (∀ loc ∈ pre ++ a :: mid, survivorB loc = true →
        ∀ ep ∈ loc.lbEndpoints, getValue ep.loadBalancingWeight ≠ 0) →
      ∃ s p, parseEDSRespProto m =
        (EndpointsUpdate.empty, some (ParseError.duplicateLocality s p))) := by
  constructor
  · intro s p h
    rcases parseEDSRespProto_error_elim m _ h with herr | ⟨prios, locs, i, hok, hfm, hei⟩
    · rcases parseLocalities_error_duplicate m.endpoints _ _ _ _ herr with
        ⟨loc, hmem, -, -, -, hlook⟩ | hdp
      · simp [lookupPrio] at hlook
      · exact hdp
    · simp at hei
  · intro pre a mid b post heq hsa hsb hpab hkab hid heps
    rcases parseLocalities_reach (b :: post) (pre ++ a :: mid) [] [] hid heps with
      ⟨s, p, herr, -⟩ | ⟨prios', acc', hstep, hiff⟩
    · refine ⟨s, p, parseEDSRespProto_of_locError m _ ?_⟩
      rw [heq]
      exact herr
    · obtain ⟨hbid, hbw⟩ := (survivorB_eq_true b).mp hsb
      rcases hlb : b.locality with _ | lb
      · rw [hlb] at hbid
        simp at hbid
      · have hkb := localityKey_eq b lb hlb
        have hamem : a ∈ pre ++ a :: mid :=
          List.mem_append_right _ (List.mem_cons_self _ _)
        have hin : LocalityID.canonicalString
            { region := lb.region, zone := lb.zone, subZone := lb.subZone } ∈
            (lookupPrio prios' b.priority).getD [] := by
          apply (hiff b.priority _).mpr
          refine Or.inr ⟨a, hamem, hsa, hpab, ?_⟩
          rw [hkab, hkb]
        have hfin : parseLocalities prios' acc' (b :: post) =
            Except.error (ParseError.duplicateLocality (LocalityID.canonicalString
              { region := lb.region, zone := lb.zone, subZone := lb.subZone })
              b.priority) := by
          simp [parseLocalities, hlb, hbw, hin]
        refine ⟨LocalityID.canonicalString
          { region := lb.region, zone := lb.zone, subZone := lb.subZone },
          b.priority, parseEDSRespProto_of_locError m _ ?_⟩
        rw [heq, hstep]
        exact hfin

/-- Witness for C2: mDup (identity A twice at priority 0) reports a
duplicate-locality error and exhibits the duplicate pair; and in mDupNil
the pair, followed by an identity-less entry that is never reached, still
forces the duplicate error. -/
theorem claim_c2_witness :
    dupPairAt mDup.endpoints 0 (localityKey entryA0) ∧
    ∃ s p, parseEDSRespProto mDupNil =
      (EndpointsUpdate.empty, some (ParseError.duplicateLocality s p)) := by
  constructor
  · exact (claim_c2 mDup).1 (localityKey entryA0) 0 (by decide)
  · exact (claim_c2 mDupNil).2 [] entryA0 [] entryA0 [entryNil] rfl
      (by decide) (by decide) rfl rfl (by decide) (by decide)

/-- Counterexample to C2 as stated: mDupPre contains two surviving entries
with the same identity at the same priority, yet the parser reports a
zero-weight-endpoint error, not a duplicate-locality error, because the
first entry's endpoints fail first. -/
theorem claim_c2_counterexample :
    dupPairAt mDupPre.endpoints 0 (localityKey entryA0) ∧
    (parseEDSRespProto mDupPre).2 = some ParseError.zeroWeightEndpoint ∧
    ParseError.zeroWeightEndpoint ≠ ParseError.duplicateLocality (localityKey entryA0) 0 := by
  refine ⟨⟨[], entryA0bad, [], entryA0, [], rfl, by decide, by decide, rfl, rfl,
    by decide, rfl⟩, by decide, by decide⟩

theorem parseLocalities_skip (z : LocalityLbEndpoints) (hz : z.locality.isSome = true)
    (hw : getValue z.loadBalancingWeight = 0) (pre post : List LocalityLbEndpoints) :
    ∀ (prios : List (Nat × List String)) (acc : List Locality),
    parseLocalities prios acc (pre ++ z :: post) = parseLocalities prios acc (pre ++ post) := by
  induction pre with
  | nil =>
    intro prios acc
    rcases hl : z.locality with _ | l
    · rw [hl] at hz
      simp at hz
    · simp [parseLocalities, hl, hw]
  | cons c pre ih =>
    intro prios acc
    rcases hl : c.locality with _ | l
    · simp [parseLocalities, hl]
    · by_cases hcw : getValue c.loadBalancingWeight = 0
      · simp only [List.cons_append, parseLocalities, hl, if_pos hcw]
        exact ih prios acc
      · by_cases hdup : LocalityID.canonicalString
            { region := l.region, zone := l.zone, subZone := l.subZone } ∈
            (lookupPrio prios c.priority).getD []
        · simp [parseLocalities, hl, hcw, hdup]
        · rcases hpe : parseEndpoints c.lbEndpoints with e | eps
          · simp [parseLocalities, hl, hcw, hdup, hpe]
          · simp only [List.cons_append, parseLocalities, hl, if_neg hcw, if_neg hdup, hpe]
            exact ih _ _

/-- C3 (amended): a locality entry that carries an identity and declares
weight zero is skipped entirely: parsing with or without it gives identical
results (so it causes no error, contributes no output locality, records no
identity and occupies no priority slot). -/
theorem claim_c3 (cn : String) (pol : Option Policy)
    (pre post : List LocalityLbEndpoints) (z : LocalityLbEndpoints)
    (hz : z.locality.isSome = true) (hw : getValue z.loadBalancingWeight = 0) :
    parseEDSRespProto { clusterName := cn, endpoints := pre ++ z :: post, policy := pol } =
    parseEDSRespProto { clusterName := cn, endpoints := pre ++ post, policy := pol } := by
  simp only [parseEDSRespProto, getDropOverloads]
  rw [parseLocalities_skip z hz hw pre post]

/-- Witness for C3: dropping the zero-weight identified entry entryZ from a
concrete message leaves the parse result unchanged. -/
theorem claim_c3_witness :
    parseEDSRespProto
      { clusterName := "c", endpoints := [entryA0] ++ entryZ :: [], policy := none } =
    parseEDSRespProto { clusterName := "c", endpoints := [entryA0] ++ [], policy := none } :=
  claim_c3 "c" none [entryA0] [] entryZ (by decide) (by decide)

/-- Counterexample to C3 as stated: the zero-weight entry of mNilZero
carries no identity, and the parser rejects the resource with a
missing-locality error instead of skipping the entry. -/
theorem claim_c3_counterexample :
    getValue entryNil.loadBalancingWeight = 0 ∧
    parseEDSRespProto mNilZero = (EndpointsUpdate.empty, some ParseError.missingLocality) := by
  refine ⟨by decide, by decide⟩

/-- C4 (amended): every endpoint of every locality of a successfully
returned update has positive weight; every input containing a surviving
locality with a zero-weight endpoint is rejected; and the error is
specifically the zero-weight-endpoint error whenever some surviving
locality with a zero-weight endpoint is preceded only by identified
entries and collides with none of the surviving entries before it (so no
missing-identity or duplicate-locality failure preempts it in scan
order). -/
theorem claim_c4 (m : ClusterLoadAssignment) :
    (∀ u, parseEDSRespProto m = (u, none) →
      ∀ loc ∈ u.localities, ∀ ep ∈ loc.endpoints, 0 < ep.weight) ∧
    ((∃ loc ∈ m.endpoints, survivorB loc = true ∧
        ∃ ep ∈ loc.lbEndpoints, getValue ep.loadBalancingWeight = 0) →
      (parseEDSRespProto m).2 ≠ none) ∧
    (∀ pre z post,
      m.endpoints = pre ++ z :: post →
      survivorB z = true →
      (∃ ep ∈ z.lbEndpoints, getValue ep.loadBalancingWeight = 0) →
      (∀ loc ∈ pre, loc.locality.isSome = true) →
      noDupList (pre ++ [z]) = true →
      parseEDSRespProto m = (EndpointsUpdate.empty, some ParseError.zeroWeightEndpoint)) := by
  refine ⟨?_, ?_, ?_⟩
  · intro u h loc hmem ep hep
    obtain ⟨prios, locs, hok, -, hu⟩ := parseEDSRespProto_ok_elim m u h
    have hloc : u.localities = locs := by rw [hu]
    rw [hloc] at hmem
    exact Nat.pos_of_ne_zero
      (parseLocalities_ok_outweights m.endpoints [] [] prios locs hok (by simp) loc hmem ep hep)
  · intro hzero hres
    obtain ⟨loc, hmem, hs, ep, hepmem, hep0⟩ := hzero
    obtain ⟨prios, locs, hok, -, -⟩ :=
      parseEDSRespProto_ok_elim m _ (parseEDSRespProto_none_pair m hres)
    exact parseLocalities_ok_epweights m.endpoints _ _ _ hok loc hmem hs ep hepmem hep0
  · intro pre z post heq hsz hzep hid hnd
    rcases list_split_first (fun loc => survivorB loc = true →
        ∀ ep ∈ loc.lbEndpoints, getValue ep.loadBalancingWeight ≠ 0) pre with
      hall | ⟨pre₁, z₁, post₁, hpre, hz₁, hall₁⟩
    · exact parseEDSRespProto_zeroWeight_core m pre z post heq hsz hzep hid hall hnd
    · have hsz₁ : survivorB z₁ = true := by
        by_contra hns
        exact hz₁ fun hs' => absurd hs' hns
      have hzep₁ : ∃ ep ∈ z₁.lbEndpoints, getValue ep.loadBalancingWeight = 0 := by
        have hne : ¬ ∀ ep ∈ z₁.lbEndpoints, getValue ep.loadBalancingWeight ≠ 0 :=
          fun hk => hz₁ fun _ => hk
        push_neg at hne
        exact hne
      refine parseEDSRespProto_zeroWeight_core m pre₁ z₁ (post₁ ++ z :: post)
        ?_ hsz₁ hzep₁ ?_ hall₁ ?_
      · rw [heq, hpre]
        simp [List.append_assoc]
      · intro loc hm
        exact hid loc (by rw [hpre]; exact List.mem_append_left _ hm)
      · have h1 : noDupList pre = true := noDupList_append_left pre [z] hnd
        rw [hpre] at h1
        exact noDupList_append_cons pre₁ z₁ post₁ h1

/-- Witness for C4: the endpoint of the successful parse of mOk has
positive weight; mC4 (whose zero-weight-endpoint survivor is preceded by an
identity-less entry) is still rejected; and mZeroDup (zero-weight-endpoint
survivor first, followed by a duplicate pair that is never reached) is
rejected with the zero-weight-endpoint error. -/
theorem claim_c4_witness :
    0 < epOut.weight ∧
    (parseEDSRespProto mC4).2 ≠ none ∧
    parseEDSRespProto mZeroDup =
      (EndpointsUpdate.empty, some ParseError.zeroWeightEndpoint) := by
  refine ⟨?_, ?_, ?_⟩
  · exact (claim_c4 mOk).1 uOk (by decide) locOut (by decide) epOut (by decide)
  · exact (claim_c4 mC4).2.1 (by decide)
  · exact (claim_c4 mZeroDup).2.2 [] entryA0bad [entryA1, entryA1] rfl
      (by decide) (by decide) (by decide) (by decide)

/-- Counterexample to C4 as stated: mC4 contains a surviving locality with
a zero-weight endpoint, yet the parser reports the missing-identity error
of the preceding entry, not a zero-weight-endpoint error. -/
theorem claim_c4_counterexample :
    (∃ loc ∈ mC4.endpoints, survivorB loc = true ∧
      ∃ ep ∈ loc.lbEndpoints, getValue ep.loadBalancingWeight = 0) ∧
    parseEDSRespProto mC4 = (EndpointsUpdate.empty, some ParseError.missingLocality) ∧
    ParseError.missingLocality ≠ ParseError.zeroWeightEndpoint := by
  refine ⟨by decide, by decide, by decide⟩

/-- C5 (amended): the Drops of a successfully returned update hold one
config per drop-overload entry, in source order, produced by
parseDropPolicy; and parseDropPolicy maps recognized denominator ordinals
HUNDRED, TEN_THOUSAND and MILLION to 100, 10000 and 1000000, maps any other
set ordinal to 0, maps an unset base (the proto3 default, HUNDRED) to 100,
and copies numerator and category through unchanged. -/
theorem claim_c5 (m : ClusterLoadAssignment) :
    (∀ u, parseEDSRespProto m = (u, none) →
      u.drops = (getDropOverloads m).map parseDropPolicy) ∧
    (∀ d, parseDropPolicy d = specDropConfig d) := by
  constructor
  · intro u h
    obtain ⟨prios, locs, hok, hfm, hu⟩ := parseEDSRespProto_ok_elim m u h
    rw [hu]
  · intro d
    rcases d with ⟨cat, fp⟩
    rcases fp with _ | ⟨num, den⟩
    · rfl
    · rcases den with _ | den
      · rfl
      · rcases den with _ | den
        · rfl
        · rcases den with _ | den
          · rfl
          · rfl

/-- Witness for C5: the drops returned for mDrops are exactly the source
drop overloads mapped in order (HUNDRED yields denominator 100 and the
absent percentage also yields 100). -/
theorem claim_c5_witness :
    uDrops.drops = (getDropOverloads mDrops).map parseDropPolicy :=
  (claim_c5 mDrops).1 uDrops (by decide)

/-- Counterexample to C5 as stated: a drop overload with an absent
percentage (unset base) yields denominator 100, not the denominator 0 the
claim assigns to an unset base. -/
theorem claim_c5_counterexample :
    parseDropPolicy { category := "u", dropPercentage := none } =
      { category := "u", numerator := 0, denominator := 100 } ∧
    claimDropConfig { category := "u", dropPercentage := none } =
      { category := "u", numerator := 0, denominator := 0 } ∧
    (100 : Nat) ≠ 0 := by
  refine ⟨by decide, by decide, by decide⟩

/-- C6 (amended): an input containing a locality entry without identity is
always rejected (never parses successfully), regardless of that entry's
weight; and the error is specifically the missing-locality-identity error
whenever some identity-less entry is preceded only by entries whose
surviving members carry only non-zero-weight endpoints and collide on no
(priority, identity) pair (so no zero-weight-endpoint or duplicate-locality
failure of an earlier entry preempts it). -/
theorem claim_c6 (m : ClusterLoadAssignment) :
    ((∃ loc ∈ m.endpoints, loc.locality = none) → (parseEDSRespProto m).2 ≠ none) ∧
    (∀ pre n post,
      m.endpoints = pre ++ n :: post →
      n.locality = none →
      (∀ loc ∈ pre, survivorB loc = true →
        ∀ ep ∈ loc.lbEndpoints, getValue ep.loadBalancingWeight ≠ 0) →
      noDupList pre = true →
      parseEDSRespProto m = (EndpointsUpdate.empty, some ParseError.missingLocality)) := by
  constructor
  · intro hnil hres
    obtain ⟨loc, hmem, hnone⟩ := hnil
    obtain ⟨prios, locs, hok, -, -⟩ :=
      parseEDSRespProto_ok_elim m _ (parseEDSRespProto_none_pair m hres)
    have := parseLocalities_ok_identified m.endpoints _ _ _ hok loc hmem
    rw [hnone] at this
    simp at this
  · intro pre n post heq hn heps hnd
    rcases list_split_first (fun loc => loc.locality.isSome = true) pre with
      hall | ⟨pre₁, n₁, post₁, hpre, hn₁, hall₁⟩
    · exact parseEDSRespProto_missing_core m pre n post heq hn hall heps hnd
    · have hnone : n₁.locality = none := by
        rcases hcase : n₁.locality with _ | l
        · rfl
        · exact absurd (by rw [hcase]; rfl) hn₁
      refine parseEDSRespProto_missing_core m pre₁ n₁ (post₁ ++ n :: post)
        ?_ hnone hall₁ ?_ ?_
      · rw [heq, hpre]
        simp [List.append_assoc]
      · intro loc hm hs
        exact heps loc (by rw [hpre]; exact List.mem_append_left _ hm) hs
      · rw [hpre] at hnd
        exact noDupList_append_left pre₁ (n₁ :: post₁) hnd

/-- Witness for C6: mC6 (identity-less entry after a zero-weight-endpoint
survivor) is still rejected; and mC4 (identity-less entry first, followed
by a zero-weight-endpoint survivor that is never reached) is rejected with
the missing-locality-identity error. -/
theorem claim_c6_witness :
    (parseEDSRespProto mC6).2 ≠ none ∧
    parseEDSRespProto mC4 = (EndpointsUpdate.empty, some ParseError.missingLocality) := by
  constructor
  · exact (claim_c6 mC6).1 (by decide)
  · exact (claim_c6 mC4).2 [] entryNil [entryA0bad] rfl rfl (by decide) (by decide)

/-- Counterexample to C6 as stated: mC6 contains an identity-less entry,
yet the parser reports the zero-weight-endpoint error of the preceding
locality, not a missing-locality-identity error. -/
theorem claim_c6_counterexample :
    (∃ loc ∈ mC6.endpoints, loc.locality = none) ∧
    parseEDSRespProto mC6 = (EndpointsUpdate.empty, some ParseError.zeroWeightEndpoint) ∧
    ParseError.zeroWeightEndpoint ≠ ParseError.missingLocality := by
  refine ⟨by decide, by decide, by decide⟩

/-- C7: when the envelope stages succeed and the decoded resource fails
validation, the per-resource unmarshal function returns the declared
cluster name alongside the error, and the batch layer records the outcome
under that name. -/
theorem claim_c7 (w : WrappedAny) (a : AnyResource) (cla : ClusterLoadAssignment)
    (e : ParseError) (rs : List WrappedAny)
    (hun : unwrapResource w = some a) (hty : IsEndpointsResource a.typeUrl = true)
    (hval : a.value = some cla) (herr : (parseEDSRespProto cla).2 = some e) :
    unmarshalEndpointsResource w =
      (cla.clusterName, EndpointsUpdate.empty, some (EdsError.parseErr e)) ∧
    (w ∈ rs → (cla.clusterName, (EndpointsUpdate.empty, some (EdsError.parseErr e))) ∈
      processAllResources rs) := by
  have hmain : unmarshalEndpointsResource w =
      (cla.clusterName, EndpointsUpdate.empty, some (EdsError.parseErr e)) := by
    have hpair := parseEDSRespProto_error_pair cla e herr
    simp [unmarshalEndpointsResource, hun, hty, hval, hpair]
  refine ⟨hmain, fun hw => ?_⟩
  simp only [processAllResources, List.mem_map]
  exact ⟨w, hw, by rw [hmain]⟩

/-- Witness for C7: wFail decodes to mGapClean, which fails validation with
a missing-priority error, and the declared name "c" is returned with the
error and keys the batch outcome. -/
theorem claim_c7_witness :
    unmarshalEndpointsResource wFail =
      ("c", EndpointsUpdate.empty, some (EdsError.parseErr (ParseError.missingPriority 1))) ∧
    ("c", (EndpointsUpdate.empty, some (EdsError.parseErr (ParseError.missingPriority 1)))) ∈
      processAllResources [wFail] := by
  have h := claim_c7 wFail anyFail mGapClean (ParseError.missingPriority 1) [wFail]
    (by decide) (by decide) (by decide) (by decide)
  exact ⟨h.1, h.2 (by decide)⟩

/-- C8: parsing a message with a single locality (identity A, weight 1,
priority 0) holding one endpoint (10.0.0.1 port 80, weight 1, HEALTHY)
and no drop policies yields exactly one locality with one endpoint whose
address is the host:port join "10.0.0.1:80", weight 1 and health ordinal 1,
with empty Drops. -/
theorem claim_c8 :
    parseEDSRespProto mOk = (uOk, none) ∧
    uOk.drops = [] ∧
    uOk.localities = [locOut] ∧
    locOut.id = { region := "A", zone := "", subZone := "" } ∧
    locOut.weight = 1 ∧
    locOut.priority = 0 ∧
    locOut.endpoints = [epOut] ∧
    epOut.address = "10.0.0.1:80" ∧
    epOut.address = joinHostPort "10.0.0.1" (Nat.repr 80) ∧
    epOut.healthStatus = 1 ∧
    epOut.weight = 1 := by
  decide

/-- C9: the per-resource parser is total: on every input it returns either
a successful update (error component none) or one of the documented error
kinds (unwrap failure, wrong resource type, decode failure, missing
locality identity, duplicate locality, zero-weight endpoint, missing
priority), each returned normally. -/
theorem claim_c9 (w : WrappedAny) :
    (unmarshalEndpointsResource w).2.2 = none ∨
    (unmarshalEndpointsResource w).2.2 = some EdsError.unwrapFailure ∨
    (∃ url, (unmarshalEndpointsResource w).2.2 = some (EdsError.wrongResourceType url)) ∨
    (unmarshalEndpointsResource w).2.2 = some EdsError.decodeFailure ∨
    (unmarshalEndpointsResource w).2.2 = some (EdsError.parseErr ParseError.missingLocality) ∨
    (∃ s p, (unmarshalEndpointsResource w).2.2 =
      some (EdsError.parseErr (ParseError.duplicateLocality s p))) ∨
    (unmarshalEndpointsResource w).2.2 = some (EdsError.parseErr ParseError.zeroWeightEndpoint) ∨
    (∃ i, (unmarshalEndpointsResource w).2.2 =
      some (EdsError.parseErr (ParseError.missingPriority i))) := by
  rcases hx : (unmarshalEndpointsResource w).2.2 with _ | e
  · exact Or.inl rfl
  · cases e with
    | unwrapFailure => simp
    | wrongResourceType url => simp
    | decodeFailure => simp
    | parseErr e' => cases e' <;> simp

/-- C10: every error leaves the zero-value update at both layers, the raw
backreference is attached exactly to successful unmarshal results (it is
the unwrapped payload), and the resource-level parser itself never sets
it. -/
theorem claim_c10 :
    (∀ m, (parseEDSRespProto m).2 ≠ none → (parseEDSRespProto m).1 = EndpointsUpdate.empty) ∧
    (∀ w, (unmarshalEndpointsResource w).2.2 ≠ none →
      (unmarshalEndpointsResource w).2.1 = EndpointsUpdate.empty) ∧
    (∀ w a n u, unwrapResource w = some a → unmarshalEndpointsResource w = (n, u, none) →
      u.raw = some a) ∧
    (∀ m, (parseEDSRespProto m).1.raw = none) := by
  refine ⟨parseEDSRespProto_error_empty, ?_, ?_, ?_⟩
  · intro w h
    rcases hun : unwrapResource w with _ | a
    · simp [unmarshalEndpointsResource, hun]
    · by_cases hty : IsEndpointsResource a.typeUrl = false
      · simp [unmarshalEndpointsResource, hun, hty]
      · rcases hval : a.value with _ | cla
        · simp [unmarshalEndpointsResource, hun, hty, hval]
        · rcases hp : parseEDSRespProto cla with ⟨u', s'⟩
          rcases s' with _ | e
          · exact absurd (by simp [unmarshalEndpointsResource, hun, hty, hval, hp]) h
          · simp [unmarshalEndpointsResource, hun, hty, hval, hp]
  · intro w a n u hun hres
    simp only [unmarshalEndpointsResource, hun] at hres
    by_cases hty : IsEndpointsResource a.typeUrl = false
    · rw [if_pos hty] at hres
      simp at hres
    · rw [if_neg hty] at hres
      rcases hval : a.value with _ | cla
      · simp only [hval] at hres
        simp at hres
      · simp only [hval] at hres
        rcases hp : parseEDSRespProto cla with ⟨u', s'⟩
        rcases s' with _ | e
        · simp only [hp] at hres
          simp only [Prod.mk.injEq] at hres
          obtain ⟨-, hu, -⟩ := hres
          rw [← hu]
        · simp only [hp] at hres
          simp at hres
  · intro m
    rcases hpl : parseLocalities [] [] m.endpoints with e | ⟨prios, locs⟩
    · simp [parseEDSRespProto, hpl, EndpointsUpdate.empty]
    · rcases hfm : firstMissingPriority prios with _ | i
      · simp [parseEDSRespProto, hpl, hfm]
      · simp [parseEDSRespProto, hpl, hfm, EndpointsUpdate.empty]

/-- Witness for C10: the failing parse of mGapClean leaves the zero-value
update, and the successful unmarshal of wOk attaches the unwrapped payload
as the raw backreference. -/
theorem claim_c10_witness :
    (parseEDSRespProto mGapClean).1 = EndpointsUpdate.empty ∧
    uOkRaw.raw = some anyOk := by
  constructor
  · exact claim_c10.1 mGapClean (by decide)
  · exact claim_c10.2.2.1 wOk anyOk "c" uOkRaw (by decide) (by decide)

end EdsParse
